import Mathlib

/-! # war.c — attack resolution and mission evaluation

A shallow embedding of the combat and mission code of `war.c`.

Conventions of the embedding:

* a C `int` is a Lean `Int`; the one place where 32-bit overflow is reachable
  from a state with non-negative troop counts, the running sum of
  `total_troops_of_player`, wraps explicitly (`wrap32`); in `resolve_attack`
  no operation leaves the range of `int` when the troop counts are `≥ 0`, as
  `set_territory` stores them;
* a `(Territory *arr, int n)` pair is a `List Territory`, `n` being its length
  (every call in `war.c` passes the allocated length); a list is never `NULL`,
  so the `!terr` / `!m` guards have no counterpart;
* the local buffers `adice[3]` and `ddice[2]` are lists of that length with
  checked accesses: `none` stands for an access outside the buffer;
* `rand()` is a stream of outputs, threaded through `roll_die`;
* `printf` calls are dropped.
-/

namespace War

/-! ## Data model -/

/-- The C struct `Territory`. -/
structure Territory where
  name : String
  color : String
  troops : Int
  owner_id : Int
  deriving DecidableEq, Repr

/-- The C struct `Player`. -/
structure Player where
  id : Int
  name : String
  deriving DecidableEq, Repr

/-- The C enum `MissionType`; a value outside the three enumerators, which only
the `default:` branch of `check_and_update_mission` would see, is not a value
of this type. -/
inductive MissionType where
  | MISSION_CONQUER_TERRITORIES
  | MISSION_ELIMINATE_PLAYER
  | MISSION_HAVE_TROOPS_TOTAL
  deriving DecidableEq, Repr

/-- The C struct `Mission`. -/
structure Mission where
  description : String
  type : MissionType
  target_player_id : Int
  required_count : Int
  completed : Bool
  deriving DecidableEq, Repr

/-! ## Machine model -/

/-- Two's-complement reduction of an integer to the range of a 32-bit `int`. -/
def wrap32 (x : Int) : Int := (x + 2 ^ 31) % 2 ^ 32 - 2 ^ 31

/-- Outputs of the successive calls of `rand()`, the next one first. -/
abbrev Rng := Nat → Int

/-- One call of `rand()`: its value and the remaining stream. -/
def rand (g : Rng) : Int × Rng := (g 0, fun i => g (i + 1))

/-- Read `buf[i]`; `none` outside the buffer. -/
def load (buf : List Int) (i : Nat) : Option Int := buf[i]?

/-- Write `buf[i] = v`; `none` outside the buffer. -/
def store (buf : List Int) (i : Nat) (v : Int) : Option (List Int) :=
  if i < buf.length then some (buf.set i v) else none

/-- The loop `for (int i = start; i < start + count; ++i) body`, as `count`
iterations from counter value `i`; an iteration that fails stops the loop. -/
def loop {σ : Type} (body : Nat → σ → Option σ) : Nat → Nat → σ → Option σ
  | 0, _, s => some s
  | count + 1, i, s => (body i s).bind (loop body count (i + 1))

/-! ## Dice and attack -/

/-- The C `swap_int(&arr[a], &arr[b])`. -/
def swap_int (arr : List Int) (a b : Nat) : Option (List Int) :=
  (load arr a).bind fun t =>
  (load arr b).bind fun vb =>
  (store arr a vb).bind fun arr1 =>
  store arr1 b t

/-- Body of the inner loop of `sort_desc`:
`if (arr[j] < arr[j+1]) swap_int(&arr[j], &arr[j+1]);`. -/
def sort_desc_step (j : Nat) (arr : List Int) : Option (List Int) :=
  (load arr j).bind fun x =>
  (load arr (j + 1)).bind fun y =>
  if x < y then swap_int arr j (j + 1) else some arr

/-- The C `sort_desc(arr, n)`: bubble sort of the first `n` cells, descending. -/
def sort_desc (arr : List Int) (n : Int) : Option (List Int) :=
  loop (fun i a => loop sort_desc_step (n - 1 - (i : Int)).toNat 0 a) (n - 1).toNat 0 arr

/-- The C `roll_die()`: `(rand() % 6) + 1`, with C's truncating `%`. -/
def roll_die (g : Rng) : Int × Rng :=
  let (r, g1) := rand g
  (Int.tmod r 6 + 1, g1)

/-- Body of `for (...) buf[i] = roll_die();`. -/
def roll_step (i : Nat) (s : List Int × Rng) : Option (List Int × Rng) :=
  let (v, g1) := roll_die s.2
  (store s.1 i v).map fun buf => (buf, g1)

/-- Body of the comparison loop of `resolve_attack`, on the pair
`(attacker_losses, defender_losses)`. -/
def compare_step (adice ddice : List Int) (i : Nat) (s : Int × Int) : Option (Int × Int) :=
  (load adice i).bind fun a =>
  (load ddice i).bind fun d =>
  if a > d then some (s.1, s.2 + 1) else some (s.1 + 1, s.2)

/-- The `attacker_dice` of `resolve_attack` before its `< 1` guard. -/
def attacker_dice_of (troops max_attacker_dice : Int) : Int :=
  let attacker_dice := troops - 1
  if attacker_dice > max_attacker_dice then max_attacker_dice else attacker_dice

/-- The `defender_dice` of `resolve_attack`. -/
def defender_dice_of (troops max_defender_dice : Int) : Int :=
  let defender_dice := troops
  let defender_dice := if defender_dice > max_defender_dice then max_defender_dice else defender_dice
  if defender_dice < 1 then 1 else defender_dice

/-- What the dice part of `resolve_attack` computes. -/
structure Round where
  adice : List Int
  ddice : List Int
  attacker_losses : Int
  defender_losses : Int
  deriving DecidableEq, Repr

/-- The dice part of `resolve_attack`: fill `adice` and `ddice`, sort them,
compare them position by position. -/
def roll_and_compare (attacker_dice defender_dice : Int) (g : Rng) : Option Round :=
  let adice : List Int := [0, 0, 0]
  let ddice : List Int := [0, 0]
  (loop roll_step attacker_dice.toNat 0 (adice, g)).bind fun (adice, g) =>
  (loop roll_step defender_dice.toNat 0 (ddice, g)).bind fun (ddice, _) =>
  (sort_desc adice attacker_dice).bind fun adice =>
  (sort_desc ddice defender_dice).bind fun ddice =>
  let comparisons := if attacker_dice < defender_dice then attacker_dice else defender_dice
  (loop (compare_step adice ddice) comparisons.toNat 0 (0, 0)).map fun (attacker_losses, defender_losses) =>
  { adice := adice, ddice := ddice,
    attacker_losses := attacker_losses, defender_losses := defender_losses }

/-- The conquest transfer of `resolve_attack`: `attacker_dice`, lowered to
`troops - 1` when it reaches the attacker's troops, then raised to 1. -/
def transfer_of (attacker_dice troops : Int) : Int :=
  let transfer := attacker_dice
  let transfer := if transfer >= troops then troops - 1 else transfer
  if transfer < 1 then 1 else transfer

/-- The C `resolve_attack`: the return code and the territories afterwards.
`A` and `D` are copies of the two cells, written back at the end; past the
owner guard they are different cells. -/
def resolve_attack (attacker_idx defender_idx : Int) (terr : List Territory)
    (max_attacker_dice max_defender_dice : Int) (g : Rng) : Option (Int × List Territory) :=
  let n : Int := terr.length
  if attacker_idx < 0 ∨ attacker_idx ≥ n ∨ defender_idx < 0 ∨ defender_idx ≥ n then some (0, terr)
  else
    match terr[attacker_idx.toNat]?, terr[defender_idx.toNat]? with
    | some A, some D =>
      if A.owner_id = D.owner_id then some (0, terr)
      else if A.troops < 2 then some (0, terr)
      else
        let attacker_dice := attacker_dice_of A.troops max_attacker_dice
        if attacker_dice < 1 then some (0, terr)
        else
          let defender_dice := defender_dice_of D.troops max_defender_dice
          (roll_and_compare attacker_dice defender_dice g).bind fun r =>
          let A := { A with troops := A.troops - r.attacker_losses }
          let D := { D with troops := D.troops - r.defender_losses }
          if D.troops ≤ 0 then
            let D := { D with owner_id := A.owner_id }
            let transfer := transfer_of attacker_dice A.troops
            let A := { A with troops := A.troops - transfer }
            let D := { D with troops := transfer }
            some (2, (terr.set attacker_idx.toNat A).set defender_idx.toNat D)
          else
            some (1, (terr.set attacker_idx.toNat A).set defender_idx.toNat D)
    | _, _ => none

/-! ## Missions -/

/-- The C `count_territories_of_player`. -/
def count_territories_of_player (arr : List Territory) (player_id : Int) : Int :=
  arr.foldl (fun c t => if t.owner_id = player_id then c + 1 else c) 0

/-- The C `total_troops_of_player`; the `int` sum wraps. -/
def total_troops_of_player (arr : List Territory) (player_id : Int) : Int :=
  arr.foldl (fun t x => if x.owner_id = player_id then wrap32 (t + x.troops) else t) 0

/-- The C `is_player_eliminated`. -/
def is_player_eliminated : List Territory → Int → Bool
  | [], _ => true
  | t :: rest, player_id => if t.owner_id = player_id then false else is_player_eliminated rest player_id

/-- The C `check_and_update_mission`: the returned flag and the mission afterwards. -/
def check_and_update_mission (m : Mission) (arr : List Territory) (_players : List Player)
    (player_count : Int) (mission_owner_id : Int) : Bool × Mission :=
  if m.completed then (true, m)
  else
    match m.type with
    | .MISSION_CONQUER_TERRITORIES =>
      let owned := count_territories_of_player arr mission_owner_id
      if owned ≥ m.required_count then (true, { m with completed := true }) else (false, m)
    | .MISSION_ELIMINATE_PLAYER =>
      if m.target_player_id < 0 ∨ m.target_player_id ≥ player_count then (false, m)
      else if is_player_eliminated arr m.target_player_id then (true, { m with completed := true })
      else (false, m)
    | .MISSION_HAVE_TROOPS_TOTAL =>
      let troops := total_troops_of_player arr mission_owner_id
      if troops ≥ m.required_count then (true, { m with completed := true }) else (false, m)

/-- A `rand()` stream that yields the listed values, then zeros. -/
def rngOfList (l : List Int) : Rng := fun i => l.getD i 0

/-! ## Scenarios -/

/-- Attacker with 5 troops against a defender with 6 troops. -/
def scenario1 : List Territory :=
  [⟨"Brasil", "Vermelho", 5, 0⟩, ⟨"EUA", "Azul", 6, 1⟩]

/-- Attacker with 3 troops against a defender with 1 troop. -/
def scenario2 : List Territory :=
  [⟨"Brasil", "Vermelho", 3, 0⟩, ⟨"Canada", "Azul", 1, 1⟩]

/-- Two territories of the same owner. -/
def scenario3 : List Territory :=
  [⟨"Brasil", "Vermelho", 5, 0⟩, ⟨"Argentina", "Vermelho", 3, 0⟩]

/-- Attacker with 2 troops against a territory as `create_territories` leaves
it: no troops, owner -1. -/
def scenario_neutral : List Territory :=
  [⟨"Brasil", "Vermelho", 2, 0⟩, ⟨"", "", 0, -1⟩]

/-- Six territories, two of them owned by player 0. -/
def scenario5 : List Territory :=
  [⟨"Brasil", "Vermelho", 5, 0⟩, ⟨"Argentina", "Vermelho", 3, 0⟩, ⟨"EUA", "Azul", 6, 1⟩,
   ⟨"Canada", "Azul", 2, 1⟩, ⟨"China", "Verde", 4, 2⟩, ⟨"India", "Verde", 3, 2⟩]

/-- The territories of `scenario5` after player 0 took Canada. -/
def scenario5_after : List Territory :=
  [⟨"Brasil", "Vermelho", 3, 0⟩, ⟨"Argentina", "Vermelho", 3, 0⟩, ⟨"EUA", "Azul", 6, 1⟩,
   ⟨"Canada", "Azul", 2, 0⟩, ⟨"China", "Verde", 4, 2⟩, ⟨"India", "Verde", 3, 2⟩]

/-- The three players of the demo. -/
def demo_players : List Player := [⟨0, "Alice"⟩, ⟨1, "Bob"⟩, ⟨2, "Carol"⟩]

/-- The mission "conquer 3 territories", pending. -/
def mission_conquer3 : Mission :=
  ⟨"Conquistar 3 territorios", .MISSION_CONQUER_TERRITORIES, -1, 3, false⟩

/-- The territories of `scenario5` after players 0 and 1 took China and India
from player 2. -/
def scenario6_after : List Territory :=
  [⟨"Brasil", "Vermelho", 3, 0⟩, ⟨"Argentina", "Vermelho", 3, 0⟩, ⟨"EUA", "Azul", 4, 1⟩,
   ⟨"Canada", "Azul", 2, 1⟩, ⟨"China", "Verde", 2, 0⟩, ⟨"India", "Verde", 2, 1⟩]

/-- The mission "eliminate player 2", pending. -/
def mission_eliminate2 : Mission :=
  ⟨"Eliminar o jogador 2 (Carol)", .MISSION_ELIMINATE_PLAYER, 2, 0, false⟩

/-- The mission "hold 8 troops in total", pending. -/
def mission_troops8 : Mission :=
  ⟨"Ter 8 tropas", .MISSION_HAVE_TROOPS_TOTAL, -1, 8, false⟩

/-- The mission "hold 1 troop in total", pending. -/
def mission_troops1 : Mission :=
  ⟨"Ter 1 tropa", .MISSION_HAVE_TROOPS_TOTAL, -1, 1, false⟩

/-- Two territories of player 0 with `2 ^ 30` troops each, as `set_territory`
stores them. -/
def scenario_large : List Territory :=
  [⟨"Brasil", "Vermelho", 1073741824, 0⟩, ⟨"Argentina", "Vermelho", 1073741824, 0⟩]

/-- The territories of `scenario5` after Argentina and Canada lost one troop
each. -/
def scenario5_repelled : List Territory :=
  [⟨"Brasil", "Vermelho", 5, 0⟩, ⟨"Argentina", "Vermelho", 2, 0⟩, ⟨"EUA", "Azul", 6, 1⟩,
   ⟨"Canada", "Azul", 1, 1⟩, ⟨"China", "Verde", 4, 2⟩, ⟨"India", "Verde", 3, 2⟩]

/-! ## Specification-side vocabulary -/

/-- The values of the next `k` calls of `roll_die`, in call order. -/
def rolls : Nat → Rng → List Int
  | 0, _ => []
  | k + 1, g => (roll_die g).1 :: rolls k (roll_die g).2

/-- The `rand()` stream left after `k` calls of `roll_die`. -/
def after_rolls : Nat → Rng → Rng
  | 0, g => g
  | k + 1, g => after_rolls k (roll_die g).2

/-- Number of positions `i < k` at which `p (a[i]) (d[i])` holds. -/
def positions (k : Nat) (a d : List Int) (p : Int → Int → Bool) : Int :=
  ((List.range k).countP fun i => p (a.getD i 0) (d.getD i 0) : Nat)

/-! ## The loops -/

theorem loop_zero {σ : Type} (body : Nat → σ → Option σ) (i : Nat) (s : σ) :
    loop body 0 i s = some s := rfl

theorem loop_succ {σ : Type} (body : Nat → σ → Option σ) (k i : Nat) (s : σ) :
    loop body (k + 1) i s = (body i s).bind (loop body k (i + 1)) := rfl

theorem store_middle (pre post : List Int) (x v : Int) :
    store (pre ++ x :: post) pre.length v = some (pre ++ v :: post) := by
  simp [store]

theorem load_middle (pre post : List Int) (x : Int) :
    load (pre ++ x :: post) pre.length = some x := by
  rw [load, List.getElem?_append_right (le_refl _)]
  simp

/-- The filling loop writes the next `k` rolls over the `k` cells it visits. -/
theorem loop_roll_step (k : Nat) : ∀ (pre mid post : List Int) (g : Rng), mid.length = k →
    loop roll_step k pre.length (pre ++ mid ++ post, g)
      = some (pre ++ rolls k g ++ post, after_rolls k g) := by
  induction k with
  | zero =>
    intro pre mid post g hk
    have : mid = [] := List.length_eq_zero.mp hk
    subst this
    simp [loop, rolls, after_rolls]
  | succ k ih =>
    intro pre mid post g hk
    obtain ⟨m, mid1, rfl⟩ := List.exists_cons_of_length_eq_add_one hk
    have hlen : mid1.length = k := by simpa using hk
    have hst : roll_step pre.length (pre ++ m :: mid1 ++ post, g)
        = some (pre ++ (roll_die g).1 :: (mid1 ++ post), (roll_die g).2) := by
      have := store_middle pre (mid1 ++ post) m (roll_die g).1
      simp only [roll_step, List.append_assoc, List.cons_append] at this ⊢
      rw [this]; rfl
    rw [loop_succ, hst, Option.some_bind]
    have := ih (pre ++ [(roll_die g).1]) mid1 post (roll_die g).2 hlen
    simp only [List.length_append, List.length_singleton, List.append_assoc,
      List.singleton_append] at this
    simp only [rolls, after_rolls, List.append_assoc, List.cons_append]
    exact this

/-- The comparison loop counts, from any starting pair, the positions won by
each side. -/
theorem loop_compare_step (adice ddice : List Int) (k : Nat) : ∀ (i : Nat) (s : Int × Int),
    i + k ≤ adice.length → i + k ≤ ddice.length →
    loop (compare_step adice ddice) k i s
      = some (s.1 + ((List.range' i k).countP fun j => decide (adice.getD j 0 ≤ ddice.getD j 0) : Nat),
              s.2 + ((List.range' i k).countP fun j => decide (adice.getD j 0 > ddice.getD j 0) : Nat)) := by
  induction k with
  | zero => intro i s _ _; simp [loop]
  | succ k ih =>
    intro i s ha hd
    have hia : i < adice.length := by omega
    have hid : i < ddice.length := by omega
    rw [loop_succ]
    have hstep : compare_step adice ddice i s
        = some (if adice.getD i 0 > ddice.getD i 0 then (s.1, s.2 + 1) else (s.1 + 1, s.2)) := by
      simp only [compare_step, load, List.getElem?_eq_getElem hia, List.getElem?_eq_getElem hid,
        Option.some_bind, List.getD_eq_getElem _ _ hia, List.getD_eq_getElem _ _ hid]
      split <;> rfl
    rw [hstep, Option.some_bind, ih (i + 1) _ (by omega) (by omega)]
    simp only [List.range'_succ, List.countP_cons]
    by_cases hc : adice.getD i 0 > ddice.getD i 0
    · have hn : ¬ adice.getD i 0 ≤ ddice.getD i 0 := by omega
      rw [if_pos hc, decide_eq_true hc, decide_eq_false hn]
      simp only [Option.some.injEq, Prod.mk.injEq, if_true, Bool.false_eq_true, if_false]
      constructor <;> push_cast <;> omega
    · have hn : adice.getD i 0 ≤ ddice.getD i 0 := by omega
      rw [if_neg hc, decide_eq_false hc, decide_eq_true hn]
      simp only [Option.some.injEq, Prod.mk.injEq, if_true, Bool.false_eq_true, if_false]
      constructor <;> push_cast <;> omega

/-! ## `sort_desc` -/

theorem sort_desc_step_middle (pre rest : List Int) (x y : Int) :
    sort_desc_step pre.length (pre ++ x :: y :: rest)
      = some (if x < y then pre ++ y :: x :: rest else pre ++ x :: y :: rest) := by
  have l0 : load (pre ++ x :: y :: rest) pre.length = some x := load_middle pre (y :: rest) x
  have l1 : load (pre ++ x :: y :: rest) (pre.length + 1) = some y := by
    have := load_middle (pre ++ [x]) rest y
    simpa using this
  have s0 : store (pre ++ x :: y :: rest) pre.length y = some (pre ++ y :: y :: rest) :=
    store_middle pre (y :: rest) x y
  have s1 : store (pre ++ y :: y :: rest) (pre.length + 1) x = some (pre ++ y :: x :: rest) := by
    have := store_middle (pre ++ [y]) rest y x
    simpa using this
  simp only [sort_desc_step, swap_int, l0, l1, s0, s1, Option.some_bind]
  split <;> rfl

/-- One pass of the inner loop over `m` adjacent pairs moves a least element of
the `m + 1` cells it visits to the last of them. -/
theorem loop_sort_desc_step (m : Nat) : ∀ (pre : List Int) (x : Int) (rest : List Int),
    m ≤ rest.length →
    ∃ (U : List Int) (mn : Int),
      loop sort_desc_step m pre.length (pre ++ x :: rest) = some (pre ++ U ++ mn :: rest.drop m) ∧
      U.length = m ∧ (U ++ [mn]).Perm (x :: rest.take m) ∧ mn ≤ x ∧ ∀ u ∈ U, mn ≤ u := by
  induction m with
  | zero =>
    intro pre x rest _
    exact ⟨[], x, by simp [loop], rfl, by simp, le_refl _, by simp⟩
  | succ m ih =>
    intro pre x rest hm
    match rest, hm with
    | y :: r, hm =>
      have hr : m ≤ r.length := by simpa using hm
      rw [loop_succ, sort_desc_step_middle, Option.some_bind]
      by_cases hxy : x < y
      · obtain ⟨U, mn, hloop, hlen, hperm, hle, hall⟩ := ih (pre ++ [y]) x r hr
        refine ⟨y :: U, mn, ?_, by simp [hlen], ?_, hle, ?_⟩
        · rw [if_pos hxy]
          simp only [List.length_append, List.length_singleton, List.append_assoc,
            List.singleton_append] at hloop
          simpa using hloop
        · simp only [List.cons_append, List.take_succ_cons]
          exact (List.Perm.cons y hperm).trans (List.Perm.swap x y _)
        · intro u hu
          rcases List.mem_cons.mp hu with rfl | hu
          · omega
          · exact hall u hu
      · obtain ⟨U, mn, hloop, hlen, hperm, hle, hall⟩ := ih (pre ++ [x]) y r hr
        refine ⟨x :: U, mn, ?_, by simp [hlen], ?_, by omega, ?_⟩
        · rw [if_neg hxy]
          simp only [List.length_append, List.length_singleton, List.append_assoc,
            List.singleton_append] at hloop
          simpa using hloop
        · simp only [List.cons_append, List.take_succ_cons]
          exact List.Perm.cons x hperm
        · intro u hu
          rcases List.mem_cons.mp hu with rfl | hu
          · omega
          · exact hall u hu

/-- The outer loop of `sort_desc`, `k` passes before the end: the unsorted
cells `U`, the sorted tail `S` below them and the untouched cells `T`. -/
theorem loop_sort_desc_pass (n : Int) (k : Nat) : ∀ (i : Nat) (U S T : List Int),
    n = (i : Int) + k + 1 → U.length = k + 1 → S.Sorted (· ≥ ·) → (∀ s ∈ S, ∀ u ∈ U, s ≤ u) →
    ∃ R : List Int,
      loop (fun i a => loop sort_desc_step (n - 1 - (i : Int)).toNat 0 a) k i (U ++ S ++ T)
        = some (R ++ T) ∧ R.Sorted (· ≥ ·) ∧ R.Perm (U ++ S) := by
  induction k with
  | zero =>
    intro i U S T _ hU hS hSU
    match U, hU with
    | [u], _ =>
      refine ⟨u :: S, by simp [loop], ?_, by simp⟩
      exact List.sorted_cons.mpr ⟨fun s hs => hSU s hs u (by simp), hS⟩
  | succ k ih =>
    intro i U S T hn hU hS hSU
    match U, hU with
    | x :: U0, hU =>
      have hU0 : U0.length = k + 1 := by simpa using hU
      have hcount : (n - 1 - (i : Int)).toNat = k + 1 := by omega
      obtain ⟨U1, mn, hloop, hlen, hperm, hle, hall⟩ :=
        loop_sort_desc_step (k + 1) [] x (U0 ++ S ++ T) (by simp [hU0])
      have hdrop : (U0 ++ S ++ T).drop (k + 1) = S ++ T := by
        rw [List.append_assoc, List.drop_append_of_le_length (by omega), ← hU0, List.drop_length]
        rfl
      have htake : (U0 ++ S ++ T).take (k + 1) = U0 := by
        rw [List.append_assoc, List.take_append_of_le_length (by omega), ← hU0, List.take_length]
      rw [hdrop] at hloop
      rw [htake] at hperm
      have hmn : mn ∈ x :: U0 := hperm.subset (by simp)
      have hsub : ∀ u ∈ U1, u ∈ x :: U0 := fun u hu => hperm.subset (by simp [hu])
      obtain ⟨R, hR, hsorted, hRperm⟩ := ih (i + 1) U1 (mn :: S) T
        (by push_cast; omega) hlen
        (List.sorted_cons.mpr ⟨fun s hs => hSU s hs mn hmn, hS⟩)
        (by
          intro s hs u hu
          rcases List.mem_cons.mp hs with rfl | hs
          · exact hall u hu
          · exact hSU s hs u (hsub u hu))
      refine ⟨R, ?_, hsorted, ?_⟩
      · rw [loop_succ]
        simp only [hcount]
        simp only [List.length_nil, List.nil_append, List.cons_append] at hloop
        rw [List.cons_append, List.cons_append, hloop, Option.some_bind]
        simpa using hR
      · refine hRperm.trans ?_
        have h1 : (U1 ++ mn :: S).Perm ((U1 ++ [mn]) ++ S) := by simp
        exact h1.trans (hperm.append_right S)

/-- The C `sort_desc(arr, n)` on an array of at least `n` cells: the first `n`
cells end in non-increasing order, as a permutation of what they held, and the
other cells are untouched. -/
theorem sort_desc_spec (arr : List Int) (n : Int) (hn : n ≤ arr.length) :
    ∃ R : List Int, sort_desc arr n = some (R ++ arr.drop n.toNat) ∧
      R.Sorted (· ≥ ·) ∧ R.Perm (arr.take n.toNat) := by
  by_cases h1 : n ≤ 1
  · refine ⟨arr.take n.toNat, ?_, ?_, List.Perm.refl _⟩
    · have : (n - 1).toNat = 0 := by omega
      simp [sort_desc, this, loop]
    · have hlen : (arr.take n.toNat).length ≤ 1 := by
        rw [List.length_take]; omega
      match arr.take n.toNat, hlen with
      | [], _ => exact List.sorted_nil
      | [a], _ => exact List.sorted_singleton a
  · have hk : (n - 1).toNat = n.toNat - 1 := by omega
    obtain ⟨R, hR, hsorted, hperm⟩ := loop_sort_desc_pass n (n.toNat - 1) 0 (arr.take n.toNat) []
      (arr.drop n.toNat) (by push_cast; omega) (by rw [List.length_take]; omega)
      List.sorted_nil (by simp)
    refine ⟨R, ?_, hsorted, by simpa using hperm⟩
    unfold sort_desc
    rw [hk]
    simpa using hR

/-- A list in non-increasing order with the elements of `l` is `l` sorted. -/
theorem sorted_desc_unique (a l : List Int) (hs : a.Sorted (· ≥ ·)) (hp : a.Perm l) :
    a = l.insertionSort (· ≥ ·) :=
  List.eq_of_perm_of_sorted (hp.trans (List.perm_insertionSort (· ≥ ·) l).symm) hs
    (List.sorted_insertionSort (· ≥ ·) l)

/-! ## The dice part of an attack -/

theorem rolls_length (k : Nat) : ∀ g : Rng, (rolls k g).length = k := by
  induction k with
  | zero => intro g; rfl
  | succ k ih => intro g; simp [rolls, ih]

/-- The filling loop succeeds only inside the buffer. -/
theorem loop_roll_step_some (k : Nat) : ∀ (i : Nat) (buf : List Int) (g : Rng)
    (s : List Int × Rng), loop roll_step k i (buf, g) = some s → i ≤ buf.length →
    i + k ≤ buf.length := by
  induction k with
  | zero => intro i buf g s _ hi; exact hi
  | succ k ih =>
    intro i buf g s h hi
    rw [loop_succ] at h
    by_cases hlt : i < buf.length
    · have hst : roll_step i (buf, g) = some (buf.set i (roll_die g).1, (roll_die g).2) := by
        simp [roll_step, store, hlt]
      rw [hst, Option.some_bind] at h
      have := ih (i + 1) _ _ s h (by simp; omega)
      simp at this
      omega
    · have hst : roll_step i (buf, g) = none := by
        simp [roll_step, store, hlt]
      rw [hst] at h
      simp at h

theorem loop_roll_step_zero (k : Nat) (buf : List Int) (g : Rng) (hk : k ≤ buf.length) :
    loop roll_step k 0 (buf, g) = some (rolls k g ++ buf.drop k, after_rolls k g) := by
  have := loop_roll_step k [] (buf.take k) (buf.drop k) g (by simp [hk])
  simpa using this

theorem positions_append (k : Nat) (a d pa pd : List Int) (p : Int → Int → Bool)
    (ha : k ≤ a.length) (hd : k ≤ d.length) :
    positions k (a ++ pa) (d ++ pd) p = positions k a d p := by
  unfold positions
  congr 1
  apply List.countP_congr
  intro j hj
  have hj : j < k := List.mem_range.mp hj
  rw [List.getD_append _ _ _ _ (by omega), List.getD_append _ _ _ _ (by omega)]

/-- Within the capacity of the two buffers the dice part succeeds: the sorted
cells are the sorted rolls of each side and the losses count the compared
positions. -/
theorem roll_and_compare_defined (ad dd : Int) (g : Rng) (ha : ad.toNat ≤ 3) (hd : dd.toNat ≤ 2) :
    ∃ a d : List Int,
      a.Sorted (· ≥ ·) ∧ a.Perm (rolls ad.toNat g) ∧
      d.Sorted (· ≥ ·) ∧ d.Perm (rolls dd.toNat (after_rolls ad.toNat g)) ∧
      roll_and_compare ad dd g = some
        { adice := a ++ List.drop ad.toNat [0, 0, 0],
          ddice := d ++ List.drop dd.toNat [0, 0],
          attacker_losses := positions (min ad dd).toNat a d fun x y => decide (x ≤ y),
          defender_losses := positions (min ad dd).toNat a d fun x y => decide (x > y) } := by
  have hfa := loop_roll_step_zero ad.toNat [0, 0, 0] g (by simpa using ha)
  have hfd := loop_roll_step_zero dd.toNat [0, 0] (after_rolls ad.toNat g) (by simpa using hd)
  obtain ⟨a, hsa, hsorta, hperma⟩ :=
    sort_desc_spec (rolls ad.toNat g ++ List.drop ad.toNat [0, 0, 0]) ad
      (by simp [rolls_length]; omega)
  obtain ⟨d, hsd, hsortd, hpermd⟩ :=
    sort_desc_spec (rolls dd.toNat (after_rolls ad.toNat g) ++ List.drop dd.toNat [0, 0]) dd
      (by simp [rolls_length]; omega)
  have hta : ∀ (k : Nat) (g : Rng) (l : List Int), (rolls k g ++ l).take k = rolls k g := by
    intro k g l
    rw [List.take_append_of_le_length (by rw [rolls_length])]
    exact List.take_of_length_le (by rw [rolls_length])
  have hda : ∀ (k : Nat) (g : Rng) (l : List Int), (rolls k g ++ l).drop k = l := by
    intro k g l
    rw [List.drop_append_of_le_length (by rw [rolls_length])]
    rw [List.drop_of_length_le (by rw [rolls_length])]
    rfl
  rw [hta] at hperma hpermd
  rw [hda] at hsa hsd
  have hla : a.length = ad.toNat := by rw [hperma.length_eq, rolls_length]
  have hld : d.length = dd.toNat := by rw [hpermd.length_eq, rolls_length]
  refine ⟨a, d, hsorta, hperma, hsortd, hpermd, ?_⟩
  have hmin : (if ad < dd then ad else dd) = min ad dd := by
    rcases lt_or_le ad dd with h | h
    · rw [if_pos h, min_eq_left h.le]
    · rw [if_neg (not_lt.mpr h), min_eq_right h]
  have hcmp := loop_compare_step (a ++ List.drop ad.toNat [0, 0, 0])
    (d ++ List.drop dd.toNat [0, 0]) (min ad dd).toNat 0 (0, 0)
    (by simp [hla]; omega) (by simp [hld]; omega)
  rw [← List.range_eq_range'] at hcmp
  have hpa := positions_append (min ad dd).toNat a d (List.drop ad.toNat [0, 0, 0])
    (List.drop dd.toNat [0, 0]) (fun x y => decide (x ≤ y)) (by omega) (by omega)
  have hpd := positions_append (min ad dd).toNat a d (List.drop ad.toNat [0, 0, 0])
    (List.drop dd.toNat [0, 0]) (fun x y => decide (x > y)) (by omega) (by omega)
  unfold positions at hpa hpd
  simp only [zero_add] at hcmp
  rw [hpa, hpd] at hcmp
  simp only [roll_and_compare, hfa, hfd, hsa, hsd, hmin, hcmp, Option.some_bind, Option.map_some']
  rfl

/-- The dice part succeeds only within the capacity of the two buffers. -/
theorem roll_and_compare_some (ad dd : Int) (g : Rng) (r : Round)
    (h : roll_and_compare ad dd g = some r) : ad.toNat ≤ 3 ∧ dd.toNat ≤ 2 := by
  unfold roll_and_compare at h
  simp only [Option.bind_eq_some] at h
  obtain ⟨sa, hsa, sd, hsd, _⟩ := h
  have h1 := loop_roll_step_some _ _ _ _ _ hsa (by simp)
  have h2 := loop_roll_step_some _ _ _ _ _ hsd (by simp)
  simp only [List.length_cons, List.length_nil, zero_add] at h1 h2
  exact ⟨by omega, by omega⟩

/-! ## `resolve_attack` -/

theorem attacker_dice_of_eq (troops max_attacker_dice : Int) :
    attacker_dice_of troops max_attacker_dice = min (troops - 1) max_attacker_dice := by
  unfold attacker_dice_of
  rcases le_or_lt (troops - 1) max_attacker_dice with h | h
  · simp only [gt_iff_lt, if_neg (not_lt.mpr h), min_eq_left h]
  · simp only [gt_iff_lt, if_pos h, min_eq_right h.le]

theorem defender_dice_of_eq (troops max_defender_dice : Int) :
    defender_dice_of troops max_defender_dice = max 1 (min troops max_defender_dice) := by
  unfold defender_dice_of
  simp only [gt_iff_lt]
  split <;> split <;> omega

theorem transfer_of_eq (attacker_dice troops : Int) :
    transfer_of attacker_dice troops =
      if (if attacker_dice ≥ troops then troops - 1 else attacker_dice) < 1 then 1
      else (if attacker_dice ≥ troops then troops - 1 else attacker_dice) := rfl

/-- Past its guards, `resolve_attack` is the dice part followed by the two
writes to the attacker and defender cells. -/
theorem resolve_attack_eq (attacker_idx defender_idx : Int) (terr : List Territory)
    (max_attacker_dice max_defender_dice : Int) (g : Rng) (A D : Territory)
    (ha0 : 0 ≤ attacker_idx) (ha1 : attacker_idx < terr.length)
    (hd0 : 0 ≤ defender_idx) (hd1 : defender_idx < terr.length)
    (hA : terr[attacker_idx.toNat]? = some A) (hD : terr[defender_idx.toNat]? = some D)
    (hown : A.owner_id ≠ D.owner_id) (htr : 2 ≤ A.troops)
    (hdice : 1 ≤ attacker_dice_of A.troops max_attacker_dice) :
    resolve_attack attacker_idx defender_idx terr max_attacker_dice max_defender_dice g =
      (roll_and_compare (attacker_dice_of A.troops max_attacker_dice)
          (defender_dice_of D.troops max_defender_dice) g).bind fun r =>
        if D.troops - r.defender_losses ≤ 0 then
          some (2, (terr.set attacker_idx.toNat
              { A with
                troops :=
                  A.troops - r.attacker_losses -
                    transfer_of (attacker_dice_of A.troops max_attacker_dice)
                      (A.troops - r.attacker_losses) }).set defender_idx.toNat
              { D with
                owner_id := A.owner_id
                troops :=
                  transfer_of (attacker_dice_of A.troops max_attacker_dice)
                    (A.troops - r.attacker_losses) })
        else
          some (1, (terr.set attacker_idx.toNat
              { A with troops := A.troops - r.attacker_losses }).set defender_idx.toNat
              { D with troops := D.troops - r.defender_losses }) := by
  have hguard : ¬ (attacker_idx < 0 ∨ attacker_idx ≥ (terr.length : Int) ∨ defender_idx < 0 ∨
      defender_idx ≥ (terr.length : Int)) := by omega
  unfold resolve_attack
  simp only [hguard, if_false, hA, hD, if_neg hown, if_neg (not_lt.mpr htr),
    if_neg (not_lt.mpr hdice)]

/-- A valid index reads a cell. -/
theorem territory_at (terr : List Territory) (i : Int) (h0 : 0 ≤ i) (h1 : i < terr.length) :
    ∃ T, terr[i.toNat]? = some T := by
  have : i.toNat < terr.length := by omega
  exact ⟨terr[i.toNat], List.getElem?_eq_getElem this⟩

/-- A call that does not return 0 passed every guard and played a dice round. -/
theorem resolve_attack_resolved (attacker_idx defender_idx : Int) (terr terr1 : List Territory)
    (max_attacker_dice max_defender_dice : Int) (g : Rng) (ret : Int)
    (h : resolve_attack attacker_idx defender_idx terr max_attacker_dice max_defender_dice g
      = some (ret, terr1)) (hret : ret ≠ 0) :
    ∃ (A D : Territory) (r : Round),
      0 ≤ attacker_idx ∧ attacker_idx < terr.length ∧
      0 ≤ defender_idx ∧ defender_idx < terr.length ∧
      terr[attacker_idx.toNat]? = some A ∧ terr[defender_idx.toNat]? = some D ∧
      A.owner_id ≠ D.owner_id ∧ 2 ≤ A.troops ∧
      1 ≤ attacker_dice_of A.troops max_attacker_dice ∧
      roll_and_compare (attacker_dice_of A.troops max_attacker_dice)
        (defender_dice_of D.troops max_defender_dice) g = some r ∧
      ((ret = 2 ∧ D.troops - r.defender_losses ≤ 0 ∧
          terr1 = (terr.set attacker_idx.toNat
              { A with
                troops :=
                  A.troops - r.attacker_losses -
                    transfer_of (attacker_dice_of A.troops max_attacker_dice)
                      (A.troops - r.attacker_losses) }).set defender_idx.toNat
              { D with
                owner_id := A.owner_id
                troops :=
                  transfer_of (attacker_dice_of A.troops max_attacker_dice)
                    (A.troops - r.attacker_losses) }) ∨
        (ret = 1 ∧ 0 < D.troops - r.defender_losses ∧
          terr1 = (terr.set attacker_idx.toNat
              { A with troops := A.troops - r.attacker_losses }).set defender_idx.toNat
              { D with troops := D.troops - r.defender_losses })) := by
  by_cases hguard : attacker_idx < 0 ∨ attacker_idx ≥ (terr.length : Int) ∨ defender_idx < 0 ∨
      defender_idx ≥ (terr.length : Int)
  · simp only [resolve_attack, hguard, if_true, Option.some.injEq, Prod.mk.injEq] at h
    exact absurd h.1.symm hret
  · have ha0 : 0 ≤ attacker_idx := by omega
    have ha1 : attacker_idx < terr.length := by omega
    have hd0 : 0 ≤ defender_idx := by omega
    have hd1 : defender_idx < terr.length := by omega
    obtain ⟨A, hA⟩ := territory_at terr attacker_idx ha0 ha1
    obtain ⟨D, hD⟩ := territory_at terr defender_idx hd0 hd1
    by_cases hown : A.owner_id = D.owner_id
    · simp only [resolve_attack, hguard, if_false, hA, hD, if_pos hown, Option.some.injEq,
        Prod.mk.injEq] at h
      exact absurd h.1.symm hret
    by_cases htr : A.troops < 2
    · simp only [resolve_attack, hguard, if_false, hA, hD, if_neg hown, if_pos htr,
        Option.some.injEq, Prod.mk.injEq] at h
      exact absurd h.1.symm hret
    by_cases hdice : attacker_dice_of A.troops max_attacker_dice < 1
    · simp only [resolve_attack, hguard, if_false, hA, hD, if_neg hown, if_neg htr, if_pos hdice,
        Option.some.injEq, Prod.mk.injEq] at h
      exact absurd h.1.symm hret
    rw [resolve_attack_eq attacker_idx defender_idx terr max_attacker_dice max_defender_dice g A D
      ha0 ha1 hd0 hd1 hA hD hown (by omega) (by omega)] at h
    rw [Option.bind_eq_some] at h
    obtain ⟨r, hr, hbody⟩ := h
    refine ⟨A, D, r, ha0, ha1, hd0, hd1, hA, hD, hown, by omega, by omega, hr, ?_⟩
    by_cases hc : D.troops - r.defender_losses ≤ 0
    · rw [if_pos hc] at hbody
      simp only [Option.some.injEq, Prod.mk.injEq] at hbody
      exact Or.inl ⟨hbody.1.symm, hc, hbody.2.symm⟩
    · rw [if_neg hc] at hbody
      simp only [Option.some.injEq, Prod.mk.injEq] at hbody
      exact Or.inr ⟨hbody.1.symm, by omega, hbody.2.symm⟩

/-- Cells with different owners are different cells. -/
theorem cells_distinct (terr : List Territory) (i j : Nat) (A D : Territory)
    (hA : terr[i]? = some A) (hD : terr[j]? = some D) (hown : A.owner_id ≠ D.owner_id) :
    i ≠ j := by
  rintro rfl
  rw [hA] at hD
  exact hown (by rw [Option.some.inj hD])

/-- The two cells after the two writes. -/
theorem cells_after (terr : List Territory) (i j : Nat) (A1 D1 : Territory)
    (hi : i < terr.length) (hj : j < terr.length) (hij : i ≠ j) :
    ((terr.set i A1).set j D1)[i]? = some A1 ∧ ((terr.set i A1).set j D1)[j]? = some D1 := by
  constructor
  · rw [List.getElem?_set_ne (Ne.symm hij), List.getElem?_set_self hi]
  · rw [List.getElem?_set_self (by rw [List.length_set]; exact hj)]

/-- The owner and troop guards of `resolve_attack`. -/
theorem owner_troops_guard (attacker_idx defender_idx : Int) (terr : List Territory)
    (max_attacker_dice max_defender_dice : Int) (g : Rng) (A D : Territory)
    (hA : terr[attacker_idx.toNat]? = some A) (hD : terr[defender_idx.toNat]? = some D)
    (hbad : A.owner_id = D.owner_id ∨ A.troops < 2) :
    resolve_attack attacker_idx defender_idx terr max_attacker_dice max_defender_dice g
      = some (0, terr) := by
  by_cases hguard : attacker_idx < 0 ∨ attacker_idx ≥ (terr.length : Int) ∨ defender_idx < 0 ∨
      defender_idx ≥ (terr.length : Int)
  · simp only [resolve_attack, hguard, if_true]
  · by_cases hown : A.owner_id = D.owner_id
    · simp only [resolve_attack, hguard, if_false, hA, hD, if_pos hown]
    · have htr : A.troops < 2 := hbad.resolve_left hown
      simp only [resolve_attack, hguard, if_false, hA, hD, if_neg hown, if_pos htr]

/-- Every compared position is lost by exactly one side. -/
theorem positions_add (k : Nat) (a d : List Int) :
    positions k a d (fun x y => decide (x ≤ y)) + positions k a d (fun x y => decide (x > y))
      = k := by
  unfold positions
  have h := List.length_eq_countP_add_countP
    (fun i => decide (a.getD i 0 ≤ d.getD i 0)) (List.range k)
  have hneg : (List.range k).countP (fun i => decide ¬ (decide (a.getD i 0 ≤ d.getD i 0) = true))
      = (List.range k).countP (fun i => decide (a.getD i 0 > d.getD i 0)) := by
    apply List.countP_congr
    intro i _
    simp
  rw [hneg, List.length_range] at h
  exact_mod_cast h.symm

theorem positions_nonneg (k : Nat) (a d : List Int) (p : Int → Int → Bool) :
    0 ≤ positions k a d p := by
  unfold positions
  exact Int.ofNat_nonneg _

/-- The losses of a dice round are non-negative and add up to the number of
compared positions. -/
theorem roll_and_compare_losses (ad dd : Int) (g : Rng) (r : Round)
    (h : roll_and_compare ad dd g = some r) :
    0 ≤ r.attacker_losses ∧ 0 ≤ r.defender_losses ∧
      r.attacker_losses + r.defender_losses = (min ad dd).toNat := by
  obtain ⟨hca, hcd⟩ := roll_and_compare_some ad dd g r h
  obtain ⟨a, d, _, _, _, _, heq⟩ := roll_and_compare_defined ad dd g hca hcd
  rw [h] at heq
  have hreq := Option.some.inj heq
  subst hreq
  refine ⟨?_, ?_, ?_⟩
  · dsimp only
    exact positions_nonneg (min ad dd).toNat a d _
  · dsimp only
    exact positions_nonneg (min ad dd).toNat a d _
  · exact positions_add (min ad dd).toNat a d

/-- A call that returns 0 changes nothing. -/
theorem resolve_attack_zero (attacker_idx defender_idx : Int) (terr terr1 : List Territory)
    (max_attacker_dice max_defender_dice : Int) (g : Rng)
    (h : resolve_attack attacker_idx defender_idx terr max_attacker_dice max_defender_dice g
      = some (0, terr1)) : terr1 = terr := by
  by_cases hguard : attacker_idx < 0 ∨ attacker_idx ≥ (terr.length : Int) ∨ defender_idx < 0 ∨
      defender_idx ≥ (terr.length : Int)
  · simp only [resolve_attack, hguard, if_true, Option.some.injEq, Prod.mk.injEq] at h
    exact h.2.symm
  · have ha0 : 0 ≤ attacker_idx := by omega
    have ha1 : attacker_idx < terr.length := by omega
    have hd0 : 0 ≤ defender_idx := by omega
    have hd1 : defender_idx < terr.length := by omega
    obtain ⟨A, hA⟩ := territory_at terr attacker_idx ha0 ha1
    obtain ⟨D, hD⟩ := territory_at terr defender_idx hd0 hd1
    by_cases hown : A.owner_id = D.owner_id
    · simp only [resolve_attack, hguard, if_false, hA, hD, if_pos hown, Option.some.injEq,
        Prod.mk.injEq] at h
      exact h.2.symm
    by_cases htr : A.troops < 2
    · simp only [resolve_attack, hguard, if_false, hA, hD, if_neg hown, if_pos htr,
        Option.some.injEq, Prod.mk.injEq] at h
      exact h.2.symm
    by_cases hdice : attacker_dice_of A.troops max_attacker_dice < 1
    · simp only [resolve_attack, hguard, if_false, hA, hD, if_neg hown, if_neg htr, if_pos hdice,
        Option.some.injEq, Prod.mk.injEq] at h
      exact h.2.symm
    rw [resolve_attack_eq attacker_idx defender_idx terr max_attacker_dice max_defender_dice g A D
      ha0 ha1 hd0 hd1 hA hD hown (by omega) (by omega), Option.bind_eq_some] at h
    obtain ⟨r, _, hbody⟩ := h
    split at hbody <;> simp at hbody

/-- With dice limits within the two buffers (3 and 2) every call returns. -/
theorem resolve_attack_total (attacker_idx defender_idx : Int) (terr : List Territory)
    (max_attacker_dice max_defender_dice : Int) (g : Rng)
    (hma : max_attacker_dice ≤ 3) (hmd : max_defender_dice ≤ 2) :
    ∃ (ret : Int) (terr1 : List Territory),
      resolve_attack attacker_idx defender_idx terr max_attacker_dice max_defender_dice g
        = some (ret, terr1) := by
  by_cases hguard : attacker_idx < 0 ∨ attacker_idx ≥ (terr.length : Int) ∨ defender_idx < 0 ∨
      defender_idx ≥ (terr.length : Int)
  · exact ⟨0, terr, by simp only [resolve_attack, hguard, if_true]⟩
  · have ha0 : 0 ≤ attacker_idx := by omega
    have ha1 : attacker_idx < terr.length := by omega
    have hd0 : 0 ≤ defender_idx := by omega
    have hd1 : defender_idx < terr.length := by omega
    obtain ⟨A, hA⟩ := territory_at terr attacker_idx ha0 ha1
    obtain ⟨D, hD⟩ := territory_at terr defender_idx hd0 hd1
    by_cases hbad : A.owner_id = D.owner_id ∨ A.troops < 2
    · exact ⟨0, terr, owner_troops_guard attacker_idx defender_idx terr
        max_attacker_dice max_defender_dice g A D hA hD hbad⟩
    by_cases hdice : attacker_dice_of A.troops max_attacker_dice < 1
    · refine ⟨0, terr, ?_⟩
      have hown : ¬ A.owner_id = D.owner_id := fun e => hbad (Or.inl e)
      have htr : ¬ A.troops < 2 := fun e => hbad (Or.inr e)
      simp only [resolve_attack, hguard, if_false, hA, hD, if_neg hown, if_neg htr, if_pos hdice]
    · have hown : A.owner_id ≠ D.owner_id := fun e => hbad (Or.inl e)
      have htr : 2 ≤ A.troops := by
        rcases lt_or_le A.troops 2 with e | e
        · exact absurd (Or.inr e) hbad
        · exact e
      have hca : (attacker_dice_of A.troops max_attacker_dice).toNat ≤ 3 := by
        rw [attacker_dice_of_eq]; omega
      have hcd : (defender_dice_of D.troops max_defender_dice).toNat ≤ 2 := by
        rw [defender_dice_of_eq]; omega
      obtain ⟨a, d, _, _, _, _, hr⟩ := roll_and_compare_defined _ _ g hca hcd
      rw [resolve_attack_eq attacker_idx defender_idx terr max_attacker_dice max_defender_dice g
        A D ha0 ha1 hd0 hd1 hA hD hown htr (by omega), hr, Option.some_bind]
      split
      · exact ⟨_, _, rfl⟩
      · exact ⟨_, _, rfl⟩

/-- The attacker and defender cells after a call that does not return 0, in
terms of the dice round the call played. -/
theorem resolve_attack_cells (attacker_idx defender_idx : Int) (terr terr1 : List Territory)
    (max_attacker_dice max_defender_dice : Int) (g : Rng) (ret : Int)
    (h : resolve_attack attacker_idx defender_idx terr max_attacker_dice max_defender_dice g
      = some (ret, terr1)) (hret : ret ≠ 0) :
    ∃ (A D A2 D2 : Territory) (r : Round),
      terr[attacker_idx.toNat]? = some A ∧ terr[defender_idx.toNat]? = some D ∧
      2 ≤ A.troops ∧ 1 ≤ attacker_dice_of A.troops max_attacker_dice ∧
      roll_and_compare (attacker_dice_of A.troops max_attacker_dice)
        (defender_dice_of D.troops max_defender_dice) g = some r ∧
      terr1[attacker_idx.toNat]? = some A2 ∧ terr1[defender_idx.toNat]? = some D2 ∧
      (ret = 1 ∨ ret = 2) ∧
      (ret = 2 ↔ D.troops - r.defender_losses ≤ 0) ∧
      (ret = 1 → A2.troops = A.troops - r.attacker_losses ∧
        D2.troops = D.troops - r.defender_losses) ∧
      (ret = 2 →
        D2.troops = transfer_of (attacker_dice_of A.troops max_attacker_dice)
          (A.troops - r.attacker_losses) ∧
        A2.troops = A.troops - r.attacker_losses - D2.troops) := by
  obtain ⟨A, D, r, ha0, ha1, hd0, hd1, hA, hD, hown, htr, hdice, hr, hcase⟩ :=
    resolve_attack_resolved attacker_idx defender_idx terr terr1 max_attacker_dice
      max_defender_dice g ret h hret
  have hne := cells_distinct terr _ _ A D hA hD hown
  have hia : attacker_idx.toNat < terr.length := by omega
  have hid : defender_idx.toNat < terr.length := by omega
  rcases hcase with ⟨h2, hle, hpost⟩ | ⟨h1, hlt, hpost⟩
  · obtain ⟨hcA, hcD⟩ := cells_after terr _ _
      { A with
        troops :=
          A.troops - r.attacker_losses -
            transfer_of (attacker_dice_of A.troops max_attacker_dice)
              (A.troops - r.attacker_losses) }
      { D with
        owner_id := A.owner_id
        troops :=
          transfer_of (attacker_dice_of A.troops max_attacker_dice)
            (A.troops - r.attacker_losses) } hia hid hne
    rw [← hpost] at hcA hcD
    refine ⟨A, D, _, _, r, hA, hD, htr, hdice, hr, hcA, hcD, Or.inr h2,
      ⟨fun _ => hle, fun _ => h2⟩, fun h1 => ?_, fun _ => ⟨rfl, rfl⟩⟩
    omega
  · obtain ⟨hcA, hcD⟩ := cells_after terr _ _
      { A with troops := A.troops - r.attacker_losses }
      { D with troops := D.troops - r.defender_losses } hia hid hne
    rw [← hpost] at hcA hcD
    refine ⟨A, D, _, _, r, hA, hD, htr, hdice, hr, hcA, hcD, Or.inl h1,
      ⟨fun h2 => ?_, fun hle => ?_⟩, fun _ => ⟨rfl, rfl⟩, fun h2 => ?_⟩
    · omega
    · omega
    · omega

/-! ## Claims on `resolve_attack` -/

/-- C1: an attack with an index outside `[0, n)`, or between two territories of
the same owner, or from a territory with fewer than 2 troops, returns 0 and
leaves every territory record as it was, for every dice limits and dice. -/
theorem resolve_attack_invalid (attacker_idx defender_idx : Int) (terr : List Territory)
    (max_attacker_dice max_defender_dice : Int) (g : Rng)
    (h : (attacker_idx < 0 ∨ (terr.length : Int) ≤ attacker_idx ∨
          defender_idx < 0 ∨ (terr.length : Int) ≤ defender_idx) ∨
        ∃ A D : Territory, terr[attacker_idx.toNat]? = some A ∧
          terr[defender_idx.toNat]? = some D ∧ (A.owner_id = D.owner_id ∨ A.troops < 2)) :
    resolve_attack attacker_idx defender_idx terr max_attacker_dice max_defender_dice g
      = some (0, terr) := by
  rcases h with hidx | ⟨A, D, hA, hD, hbad⟩
  · have hguard : attacker_idx < 0 ∨ attacker_idx ≥ (terr.length : Int) ∨ defender_idx < 0 ∨
        defender_idx ≥ (terr.length : Int) := hidx
    simp only [resolve_attack, hguard, if_true]
  · exact owner_troops_guard attacker_idx defender_idx terr max_attacker_dice
      max_defender_dice g A D hA hD hbad

/-- C1, at an attack between two territories of player 0. -/
theorem resolve_attack_invalid_witness :
    (((0 : Int) < 0 ∨ (scenario3.length : Int) ≤ 0 ∨ (1 : Int) < 0 ∨
        (scenario3.length : Int) ≤ 1) ∨
      ∃ A D : Territory, scenario3[(0 : Int).toNat]? = some A ∧
        scenario3[(1 : Int).toNat]? = some D ∧ (A.owner_id = D.owner_id ∨ A.troops < 2)) ∧
    resolve_attack 0 1 scenario3 3 2 (rngOfList [5, 4, 3, 5, 2]) = some (0, scenario3) :=
  have hyp : ((0 : Int) < 0 ∨ (scenario3.length : Int) ≤ 0 ∨ (1 : Int) < 0 ∨
        (scenario3.length : Int) ≤ 1) ∨
      ∃ A D : Territory, scenario3[(0 : Int).toNat]? = some A ∧
        scenario3[(1 : Int).toNat]? = some D ∧ (A.owner_id = D.owner_id ∨ A.troops < 2) :=
    Or.inr ⟨_, _, rfl, rfl, Or.inl rfl⟩
  ⟨hyp, resolve_attack_invalid 0 1 scenario3 3 2 (rngOfList [5, 4, 3, 5, 2]) hyp⟩

/-- C2: from a pre-state with troop counts `≥ 0`, a conquest can leave the
attacker with 0 troops: 2 troops against an empty territory, the attacker
losing the one comparison (die 1 against die 6). -/
theorem conquest_empties_attacker :
    (∀ t ∈ scenario_neutral, 0 ≤ t.troops) ∧
    resolve_attack 0 1 scenario_neutral 3 2 (rngOfList [0, 5])
      = some (2, [⟨"Brasil", "Vermelho", 0, 0⟩, ⟨"", "", 1, 0⟩]) := by
  constructor
  · decide
  · decide

/-- C3: in a resolved attack (return 1 or 2) the losses are counted position
by position on the two sides' rolls sorted in descending order: the defender
loses the positions where the attacker's die is strictly higher, the attacker
loses the others, ties included. -/
theorem resolve_attack_losses_by_position (attacker_idx defender_idx : Int)
    (terr terr1 : List Territory) (max_attacker_dice max_defender_dice : Int) (g : Rng)
    (ret : Int)
    (h : resolve_attack attacker_idx defender_idx terr max_attacker_dice max_defender_dice g
      = some (ret, terr1)) (hret : ret = 1 ∨ ret = 2) :
    ∃ (A D : Territory) (r : Round) (attackerDice defenderDice : Int) (a d : List Int),
      terr[attacker_idx.toNat]? = some A ∧ terr[defender_idx.toNat]? = some D ∧
      attackerDice = attacker_dice_of A.troops max_attacker_dice ∧
      defenderDice = defender_dice_of D.troops max_defender_dice ∧
      roll_and_compare attackerDice defenderDice g = some r ∧
      a = (rolls attackerDice.toNat g).insertionSort (· ≥ ·) ∧
      d = (rolls defenderDice.toNat (after_rolls attackerDice.toNat g)).insertionSort (· ≥ ·) ∧
      r.adice.take attackerDice.toNat = a ∧ r.ddice.take defenderDice.toNat = d ∧
      r.defender_losses
        = positions (min attackerDice defenderDice).toNat a d (fun x y => decide (x > y)) ∧
      r.attacker_losses
        = positions (min attackerDice defenderDice).toNat a d (fun x y => decide (x ≤ y)) := by
  obtain ⟨A, D, r, _, _, _, _, hA, hD, _, _, _, hr, _⟩ :=
    resolve_attack_resolved attacker_idx defender_idx terr terr1 max_attacker_dice
      max_defender_dice g ret h (by omega)
  obtain ⟨hca, hcd⟩ := roll_and_compare_some _ _ g r hr
  obtain ⟨a, d, hsa, hpa, hsd, hpd, heq⟩ := roll_and_compare_defined _ _ g hca hcd
  rw [hr] at heq
  have hreq := Option.some.inj heq
  have hla : a.length = (attacker_dice_of A.troops max_attacker_dice).toNat := by
    rw [hpa.length_eq, rolls_length]
  have hld : d.length = (defender_dice_of D.troops max_defender_dice).toNat := by
    rw [hpd.length_eq, rolls_length]
  refine ⟨A, D, r, _, _, a, d, hA, hD, rfl, rfl, hr, sorted_desc_unique a _ hsa hpa,
    sorted_desc_unique d _ hsd hpd, ?_, ?_, ?_, ?_⟩
  · rw [hreq, ← hla]
    exact List.take_left' rfl
  · rw [hreq, ← hld]
    exact List.take_left' rfl
  · rw [hreq]
  · rw [hreq]

/-- C3, at attacker 5 troops against defender 6 troops, dice 6, 5, 4 against 6, 3. -/
theorem resolve_attack_losses_by_position_witness :
    resolve_attack 0 1 scenario1 3 2 (rngOfList [5, 4, 3, 5, 2])
      = some (1, [⟨"Brasil", "Vermelho", 4, 0⟩, ⟨"EUA", "Azul", 5, 1⟩]) ∧
    ∃ (A D : Territory) (r : Round) (attackerDice defenderDice : Int) (a d : List Int),
      scenario1[(0 : Int).toNat]? = some A ∧ scenario1[(1 : Int).toNat]? = some D ∧
      attackerDice = attacker_dice_of A.troops 3 ∧
      defenderDice = defender_dice_of D.troops 2 ∧
      roll_and_compare attackerDice defenderDice (rngOfList [5, 4, 3, 5, 2]) = some r ∧
      a = (rolls attackerDice.toNat (rngOfList [5, 4, 3, 5, 2])).insertionSort (· ≥ ·) ∧
      d = (rolls defenderDice.toNat
        (after_rolls attackerDice.toNat (rngOfList [5, 4, 3, 5, 2]))).insertionSort (· ≥ ·) ∧
      r.adice.take attackerDice.toNat = a ∧ r.ddice.take defenderDice.toNat = d ∧
      r.defender_losses
        = positions (min attackerDice defenderDice).toNat a d (fun x y => decide (x > y)) ∧
      r.attacker_losses
        = positions (min attackerDice defenderDice).toNat a d (fun x y => decide (x ≤ y)) :=
  ⟨by decide,
    resolve_attack_losses_by_position 0 1 scenario1
      [⟨"Brasil", "Vermelho", 4, 0⟩, ⟨"EUA", "Azul", 5, 1⟩] 3 2 (rngOfList [5, 4, 3, 5, 2]) 1
      (by decide) (Or.inl rfl)⟩

/-- C4: in a resolved attack the return value is 2 exactly when the defender's
troops minus its losses are `≤ 0`; then, with `A1` the attacker's troops minus
its losses and the transfer being the attacker's dice count, replaced by
`A1 - 1` when it is `≥ A1`, then by 1 when it is `< 1`, the defender cell gets
the attacker's owner and the transfer as troops, and the attacker keeps
`A1 - transfer`. -/
theorem resolve_attack_conquest (attacker_idx defender_idx : Int)
    (terr terr1 : List Territory) (max_attacker_dice max_defender_dice : Int) (g : Rng)
    (ret : Int)
    (h : resolve_attack attacker_idx defender_idx terr max_attacker_dice max_defender_dice g
      = some (ret, terr1)) (hret : ret = 1 ∨ ret = 2) :
    ∃ (A D : Territory) (r : Round),
      terr[attacker_idx.toNat]? = some A ∧ terr[defender_idx.toNat]? = some D ∧
      roll_and_compare (attacker_dice_of A.troops max_attacker_dice)
        (defender_dice_of D.troops max_defender_dice) g = some r ∧
      (ret = 2 ↔ D.troops - r.defender_losses ≤ 0) ∧
      (ret = 2 → ∃ (A2 D2 : Territory) (A1 t0 t1 transfer : Int),
        terr1[attacker_idx.toNat]? = some A2 ∧ terr1[defender_idx.toNat]? = some D2 ∧
        A1 = A.troops - r.attacker_losses ∧
        t0 = min (A.troops - 1) max_attacker_dice ∧
        t1 = (if t0 ≥ A1 then A1 - 1 else t0) ∧
        transfer = (if t1 < 1 then 1 else t1) ∧
        D2.owner_id = A.owner_id ∧ A2.owner_id = A.owner_id ∧
        A2.troops = A1 - transfer ∧ D2.troops = transfer) := by
  obtain ⟨A, D, r, ha0, ha1, hd0, hd1, hA, hD, hown, _, _, hr, hcase⟩ :=
    resolve_attack_resolved attacker_idx defender_idx terr terr1 max_attacker_dice
      max_defender_dice g ret h (by omega)
  have hne := cells_distinct terr _ _ A D hA hD hown
  have hia : attacker_idx.toNat < terr.length := by omega
  have hid : defender_idx.toNat < terr.length := by omega
  refine ⟨A, D, r, hA, hD, hr, ?_, ?_⟩
  · rcases hcase with ⟨h2, hle, _⟩ | ⟨h1, hlt, _⟩
    · exact ⟨fun _ => hle, fun _ => h2⟩
    · exact ⟨fun h2 => by omega, fun hle => by omega⟩
  · intro h2
    rcases hcase with ⟨_, _, hpost⟩ | ⟨h1, _, _⟩
    · obtain ⟨hcA, hcD⟩ := cells_after terr _ _
        { A with
          troops :=
            A.troops - r.attacker_losses -
              transfer_of (attacker_dice_of A.troops max_attacker_dice)
                (A.troops - r.attacker_losses) }
        { D with
          owner_id := A.owner_id
          troops :=
            transfer_of (attacker_dice_of A.troops max_attacker_dice)
              (A.troops - r.attacker_losses) } hia hid hne
      rw [← hpost] at hcA hcD
      refine ⟨_, _, _, _, _, _, hcA, hcD, rfl, rfl, rfl, rfl, rfl, rfl, ?_, ?_⟩
      · simp only [transfer_of_eq, attacker_dice_of_eq]
      · simp only [transfer_of_eq, attacker_dice_of_eq]
    · omega

/-- C4, at attacker 3 troops against defender 1 troop, dice 4, 2 against 1. -/
theorem resolve_attack_conquest_witness :
    resolve_attack 0 1 scenario2 3 2 (rngOfList [3, 1, 0])
      = some (2, [⟨"Brasil", "Vermelho", 1, 0⟩, ⟨"Canada", "Azul", 2, 0⟩]) ∧
    ∃ (A D : Territory) (r : Round),
      scenario2[(0 : Int).toNat]? = some A ∧ scenario2[(1 : Int).toNat]? = some D ∧
      roll_and_compare (attacker_dice_of A.troops 3) (defender_dice_of D.troops 2)
        (rngOfList [3, 1, 0]) = some r ∧
      ((2 : Int) = 2 ↔ D.troops - r.defender_losses ≤ 0) ∧
      ((2 : Int) = 2 → ∃ (A2 D2 : Territory) (A1 t0 t1 transfer : Int),
        [(⟨"Brasil", "Vermelho", 1, 0⟩ : Territory), ⟨"Canada", "Azul", 2, 0⟩][(0 : Int).toNat]?
          = some A2 ∧
        [(⟨"Brasil", "Vermelho", 1, 0⟩ : Territory), ⟨"Canada", "Azul", 2, 0⟩][(1 : Int).toNat]?
          = some D2 ∧
        A1 = A.troops - r.attacker_losses ∧
        t0 = min (A.troops - 1) 3 ∧
        t1 = (if t0 ≥ A1 then A1 - 1 else t0) ∧
        transfer = (if t1 < 1 then 1 else t1) ∧
        D2.owner_id = A.owner_id ∧ A2.owner_id = A.owner_id ∧
        A2.troops = A1 - transfer ∧ D2.troops = transfer) :=
  ⟨by decide,
    resolve_attack_conquest 0 1 scenario2
      [⟨"Brasil", "Vermelho", 1, 0⟩, ⟨"Canada", "Azul", 2, 0⟩] 3 2 (rngOfList [3, 1, 0]) 2
      (by decide) (Or.inr rfl)⟩


/-- C6: with valid indices, different owners and at least 2 attacker troops,
an attacker dice limit below 1 makes the call return 0 and change nothing; with
a limit of at least 1 and dice counts that fit the buffers (at most 3 and 2) the
call returns 1 or 2, its `attacker_dice` is `min (troops - 1) limit`, which is
then `max 1 (min (troops - 1) limit)`, the attacker's buffer holds exactly that
many dice, the first rolls of the stream, the defender's dice are the rolls
that follow them, and the two cells afterwards are what the losses of these
dice give. -/
theorem resolve_attack_resolves (attacker_idx defender_idx : Int) (terr : List Territory)
    (max_attacker_dice max_defender_dice : Int) (g : Rng) (A D : Territory)
    (ha0 : 0 ≤ attacker_idx) (ha1 : attacker_idx < terr.length)
    (hd0 : 0 ≤ defender_idx) (hd1 : defender_idx < terr.length)
    (hA : terr[attacker_idx.toNat]? = some A) (hD : terr[defender_idx.toNat]? = some D)
    (hown : A.owner_id ≠ D.owner_id) (htr : 2 ≤ A.troops) :
    (max_attacker_dice < 1 →
      resolve_attack attacker_idx defender_idx terr max_attacker_dice max_defender_dice g
        = some (0, terr)) ∧
    (1 ≤ max_attacker_dice → min (A.troops - 1) max_attacker_dice ≤ 3 →
      max 1 (min D.troops max_defender_dice) ≤ 2 →
      ∃ (ret : Int) (terr1 : List Territory) (r : Round) (A2 D2 : Territory)
        (attackerDice defenderDice : Int) (a d : List Int),
        resolve_attack attacker_idx defender_idx terr max_attacker_dice max_defender_dice g
          = some (ret, terr1) ∧ (ret = 1 ∨ ret = 2) ∧
        attackerDice = attacker_dice_of A.troops max_attacker_dice ∧
        attackerDice = min (A.troops - 1) max_attacker_dice ∧
        attackerDice = max 1 (min (A.troops - 1) max_attacker_dice) ∧
        defenderDice = defender_dice_of D.troops max_defender_dice ∧
        roll_and_compare attackerDice defenderDice g = some r ∧
        a = (rolls attackerDice.toNat g).insertionSort (· ≥ ·) ∧
        (a.length : Int) = attackerDice ∧
        d = (rolls defenderDice.toNat (after_rolls attackerDice.toNat g)).insertionSort
          (· ≥ ·) ∧
        r.adice = a ++ List.drop a.length [0, 0, 0] ∧
        r.ddice = d ++ List.drop d.length [0, 0] ∧
        r.attacker_losses
          = positions (min attackerDice defenderDice).toNat a d (fun x y => decide (x ≤ y)) ∧
        r.defender_losses
          = positions (min attackerDice defenderDice).toNat a d (fun x y => decide (x > y)) ∧
        terr1[attacker_idx.toNat]? = some A2 ∧ terr1[defender_idx.toNat]? = some D2 ∧
        (ret = 2 ↔ D.troops - r.defender_losses ≤ 0) ∧
        (ret = 1 → A2.troops = A.troops - r.attacker_losses ∧
          D2.troops = D.troops - r.defender_losses) ∧
        (ret = 2 → A2.troops + D2.troops = A.troops - r.attacker_losses)) := by
  have hguard : ¬ (attacker_idx < 0 ∨ attacker_idx ≥ (terr.length : Int) ∨ defender_idx < 0 ∨
      defender_idx ≥ (terr.length : Int)) := by omega
  have hadice := attacker_dice_of_eq A.troops max_attacker_dice
  have hddice := defender_dice_of_eq D.troops max_defender_dice
  constructor
  · intro hlim
    have hdice : attacker_dice_of A.troops max_attacker_dice < 1 := by omega
    simp only [resolve_attack, hguard, if_false, hA, hD, if_neg hown, if_neg (not_lt.mpr htr),
      if_pos hdice]
  · intro hlim hca hcd
    have hdice : 1 ≤ attacker_dice_of A.troops max_attacker_dice := by omega
    obtain ⟨a, d, hsa, hpa, hsd, hpd, hr⟩ := roll_and_compare_defined
      (attacker_dice_of A.troops max_attacker_dice)
      (defender_dice_of D.troops max_defender_dice) g (by omega) (by omega)
    have hla : a.length = (attacker_dice_of A.troops max_attacker_dice).toNat := by
      rw [hpa.length_eq, rolls_length]
    have hld : d.length = (defender_dice_of D.troops max_defender_dice).toNat := by
      rw [hpd.length_eq, rolls_length]
    have hres : ∃ (ret : Int) (terr1 : List Territory),
        resolve_attack attacker_idx defender_idx terr max_attacker_dice max_defender_dice g
          = some (ret, terr1) ∧ ret ≠ 0 := by
      rw [resolve_attack_eq attacker_idx defender_idx terr max_attacker_dice max_defender_dice g
        A D ha0 ha1 hd0 hd1 hA hD hown htr hdice, hr, Option.some_bind]
      split
      · exact ⟨2, _, rfl, by decide⟩
      · exact ⟨1, _, rfl, by decide⟩
    obtain ⟨ret, terr1, hcall, hne0⟩ := hres
    obtain ⟨A0, D0, A2, D2, r, hA0, hD0, _, _, hr0, hcA, hcD, hret, hiff, hrep, hconq⟩ :=
      resolve_attack_cells attacker_idx defender_idx terr terr1 max_attacker_dice
        max_defender_dice g ret hcall hne0
    have hAA : A0 = A := by
      rw [hA] at hA0
      exact (Option.some.inj hA0).symm
    have hDD : D0 = D := by
      rw [hD] at hD0
      exact (Option.some.inj hD0).symm
    subst hAA
    subst hDD
    rw [hr0] at hr
    have hreq := Option.some.inj hr
    refine ⟨ret, terr1, r, A2, D2, _, _, a, d, hcall, hret, rfl, hadice, by omega, rfl, hr0,
      sorted_desc_unique a _ hsa hpa, by omega, sorted_desc_unique d _ hsd hpd, ?_, ?_, ?_, ?_,
      hcA, hcD, hiff, hrep, fun h2 => ?_⟩
    · rw [hreq, hla]
    · rw [hreq, hld]
    · rw [hreq]
    · rw [hreq]
    · obtain ⟨h1, h2⟩ := hconq h2
      omega

/-- C6, at attacker 5 troops against defender 6 troops, with limits (0, 2)
and with limits (3, 2). -/
theorem resolve_attack_resolves_witness :
    resolve_attack 0 1 scenario1 0 2 (rngOfList [5, 4, 3, 5, 2]) = some (0, scenario1) ∧
    ∃ (ret : Int) (terr1 : List Territory) (r : Round) (A2 D2 : Territory)
      (attackerDice defenderDice : Int) (a d : List Int),
      resolve_attack 0 1 scenario1 3 2 (rngOfList [5, 4, 3, 5, 2]) = some (ret, terr1) ∧
      (ret = 1 ∨ ret = 2) ∧
      attackerDice = attacker_dice_of 5 3 ∧
      attackerDice = min ((5 : Int) - 1) 3 ∧
      attackerDice = max 1 (min ((5 : Int) - 1) 3) ∧
      defenderDice = defender_dice_of 6 2 ∧
      roll_and_compare attackerDice defenderDice (rngOfList [5, 4, 3, 5, 2]) = some r ∧
      a = (rolls attackerDice.toNat (rngOfList [5, 4, 3, 5, 2])).insertionSort (· ≥ ·) ∧
      (a.length : Int) = attackerDice ∧
      d = (rolls defenderDice.toNat
        (after_rolls attackerDice.toNat (rngOfList [5, 4, 3, 5, 2]))).insertionSort (· ≥ ·) ∧
      r.adice = a ++ List.drop a.length [0, 0, 0] ∧
      r.ddice = d ++ List.drop d.length [0, 0] ∧
      r.attacker_losses
        = positions (min attackerDice defenderDice).toNat a d (fun x y => decide (x ≤ y)) ∧
      r.defender_losses
        = positions (min attackerDice defenderDice).toNat a d (fun x y => decide (x > y)) ∧
      terr1[(0 : Int).toNat]? = some A2 ∧ terr1[(1 : Int).toNat]? = some D2 ∧
      (ret = 2 ↔ (6 : Int) - r.defender_losses ≤ 0) ∧
      (ret = 1 → A2.troops = 5 - r.attacker_losses ∧ D2.troops = 6 - r.defender_losses) ∧
      (ret = 2 → A2.troops + D2.troops = 5 - r.attacker_losses) :=
  ⟨(resolve_attack_resolves 0 1 scenario1 0 2 (rngOfList [5, 4, 3, 5, 2])
      ⟨"Brasil", "Vermelho", 5, 0⟩ ⟨"EUA", "Azul", 6, 1⟩ (by decide) (by decide) (by decide)
      (by decide) rfl rfl (by decide) (by decide)).1 (by decide),
    (resolve_attack_resolves 0 1 scenario1 3 2 (rngOfList [5, 4, 3, 5, 2])
      ⟨"Brasil", "Vermelho", 5, 0⟩ ⟨"EUA", "Azul", 6, 1⟩ (by decide) (by decide) (by decide)
      (by decide) rfl rfl (by decide) (by decide)).2 (by decide) (by decide) (by decide)⟩

/-- C6 fails as stated: with valid indices, different owners and 5 attacker
troops, an attacker dice limit of 0 makes the call return 0 and change
nothing, where the claim has the attack resolved with
`max 1 (min (5 - 1) 0) = 1` die rolled. -/
theorem resolve_attack_limit_counterexample :
    ∃ A D : Territory, (0 : Int) ≤ 0 ∧ (0 : Int) < scenario1.length ∧
      (0 : Int) ≤ 1 ∧ (1 : Int) < scenario1.length ∧
      scenario1[(0 : Int).toNat]? = some A ∧
      scenario1[(1 : Int).toNat]? = some D ∧ A.owner_id ≠ D.owner_id ∧ 2 ≤ A.troops ∧
      max 1 (min (A.troops - 1) 0) = 1 ∧
      resolve_attack 0 1 scenario1 0 2 (rngOfList [5, 4, 3, 5, 2]) = some (0, scenario1) ∧
      ¬ ((0 : Int) = 1 ∨ (0 : Int) = 2) := by
  refine ⟨_, _, ?_, ?_, ?_, ?_, rfl, rfl, ?_, ?_, ?_, ?_, ?_⟩ <;> decide

/-- C7: from territories with troop counts `≥ 0`, every post-state of
`resolve_attack` has troop counts `≥ 0`, whatever it returns; and with dice
limits within the buffers (3 and 2) the call does return. -/
theorem resolve_attack_troops_nonneg (attacker_idx defender_idx : Int) (terr : List Territory)
    (max_attacker_dice max_defender_dice : Int) (g : Rng)
    (hpre : ∀ t ∈ terr, 0 ≤ t.troops) :
    (∀ (ret : Int) (terr1 : List Territory),
      resolve_attack attacker_idx defender_idx terr max_attacker_dice max_defender_dice g
        = some (ret, terr1) → ∀ t ∈ terr1, 0 ≤ t.troops) ∧
    (max_attacker_dice ≤ 3 → max_defender_dice ≤ 2 →
      ∃ (ret : Int) (terr1 : List Territory),
        resolve_attack attacker_idx defender_idx terr max_attacker_dice max_defender_dice g
          = some (ret, terr1)) := by
  refine ⟨?_, resolve_attack_total attacker_idx defender_idx terr max_attacker_dice
    max_defender_dice g⟩
  intro ret terr1 h t ht
  by_cases hret : ret = 0
  · subst hret
    rw [resolve_attack_zero _ _ _ _ _ _ _ h] at ht
    exact hpre t ht
  · obtain ⟨A, D, r, _, _, _, _, hA, hD, _, htr, hdice, hr, hcase⟩ :=
      resolve_attack_resolved attacker_idx defender_idx terr terr1 max_attacker_dice
        max_defender_dice g ret h hret
    obtain ⟨hal, hdl, hsum⟩ := roll_and_compare_losses _ _ g r hr
    have hD0 : 0 ≤ D.troops := hpre D (List.getElem?_mem hD)
    have hadice := attacker_dice_of_eq A.troops max_attacker_dice
    have hddice := defender_dice_of_eq D.troops max_defender_dice
    have hA1 : 1 ≤ A.troops - r.attacker_losses := by omega
    rcases hcase with ⟨_, _, hpost⟩ | ⟨_, hpos, hpost⟩
    · rw [hpost] at ht
      have htrans := transfer_of_eq (attacker_dice_of A.troops max_attacker_dice)
        (A.troops - r.attacker_losses)
      rcases List.mem_or_eq_of_mem_set ht with ht | rfl
      · rcases List.mem_or_eq_of_mem_set ht with ht | rfl
        · exact hpre t ht
        · dsimp only
          rw [htrans]
          split <;> split <;> omega
      · dsimp only
        rw [htrans]
        split <;> split <;> omega
    · rw [hpost] at ht
      rcases List.mem_or_eq_of_mem_set ht with ht | rfl
      · rcases List.mem_or_eq_of_mem_set ht with ht | rfl
        · exact hpre t ht
        · dsimp only
          omega
      · dsimp only
        omega

/-- C7, at attacker 5 troops against defender 6 troops with limits (3, 2). -/
theorem resolve_attack_troops_nonneg_witness :
    (∀ t ∈ scenario1, 0 ≤ t.troops) ∧
    resolve_attack 0 1 scenario1 3 2 (rngOfList [5, 4, 3, 5, 2])
      = some (1, [⟨"Brasil", "Vermelho", 4, 0⟩, ⟨"EUA", "Azul", 5, 1⟩]) ∧
    (∀ t ∈ [(⟨"Brasil", "Vermelho", 4, 0⟩ : Territory), ⟨"EUA", "Azul", 5, 1⟩], 0 ≤ t.troops) ∧
    ∃ (ret : Int) (terr1 : List Territory),
      resolve_attack 0 1 scenario1 3 2 (rngOfList [5, 4, 3, 5, 2]) = some (ret, terr1) :=
  ⟨by decide, by decide,
    (resolve_attack_troops_nonneg 0 1 scenario1 3 2 (rngOfList [5, 4, 3, 5, 2])
      (by decide)).1 1 [⟨"Brasil", "Vermelho", 4, 0⟩, ⟨"EUA", "Azul", 5, 1⟩] (by decide),
    (resolve_attack_troops_nonneg 0 1 scenario1 3 2 (rngOfList [5, 4, 3, 5, 2])
      (by decide)).2 (by decide) (by decide)⟩

/-- C8: in a resolved attack the call's `attacker_dice` is
`min (troops - 1) limit`, its `defender_dice` is `max 1 (min troops limit)`,
and the two losses of the round played with these counts, the losses the two
cells show afterwards, add up to the number of comparisons, the minimum of the
two counts. -/
theorem resolve_attack_losses_sum (attacker_idx defender_idx : Int)
    (terr terr1 : List Territory) (max_attacker_dice max_defender_dice : Int) (g : Rng)
    (ret : Int)
    (h : resolve_attack attacker_idx defender_idx terr max_attacker_dice max_defender_dice g
      = some (ret, terr1)) (hret : ret = 1 ∨ ret = 2) :
    ∃ (A D A2 D2 : Territory) (r : Round) (attackerDice defenderDice comparisons : Int),
      terr[attacker_idx.toNat]? = some A ∧ terr[defender_idx.toNat]? = some D ∧
      attackerDice = attacker_dice_of A.troops max_attacker_dice ∧
      defenderDice = defender_dice_of D.troops max_defender_dice ∧
      attackerDice = min (A.troops - 1) max_attacker_dice ∧
      defenderDice = max 1 (min D.troops max_defender_dice) ∧
      comparisons = min attackerDice defenderDice ∧
      roll_and_compare attackerDice defenderDice g = some r ∧
      0 ≤ r.attacker_losses ∧ 0 ≤ r.defender_losses ∧
      r.attacker_losses + r.defender_losses = comparisons ∧
      terr1[attacker_idx.toNat]? = some A2 ∧ terr1[defender_idx.toNat]? = some D2 ∧
      (ret = 2 ↔ D.troops - r.defender_losses ≤ 0) ∧
      (ret = 1 → A2.troops = A.troops - r.attacker_losses ∧
        D2.troops = D.troops - r.defender_losses) ∧
      (ret = 2 → A2.troops + D2.troops = A.troops - r.attacker_losses) := by
  obtain ⟨A, D, A2, D2, r, hA, hD, _, hdice, hr, hcA, hcD, _, hiff, hrep, hconq⟩ :=
    resolve_attack_cells attacker_idx defender_idx terr terr1 max_attacker_dice
      max_defender_dice g ret h (by omega)
  obtain ⟨hal, hdl, hsum⟩ := roll_and_compare_losses _ _ g r hr
  have hadice := attacker_dice_of_eq A.troops max_attacker_dice
  have hddice := defender_dice_of_eq D.troops max_defender_dice
  refine ⟨A, D, A2, D2, r, _, _, _, hA, hD, rfl, rfl, hadice, hddice, rfl, hr, hal, hdl,
    by omega, hcA, hcD, hiff, hrep, fun h2 => ?_⟩
  obtain ⟨h1, h3⟩ := hconq h2
  omega

/-- C8, at attacker 3 troops against defender 1 troop with limits (3, 2), dice
4, 2 against 1: 2 attacker dice, 1 defender die, 1 comparison, lost by the
defender, and the cells go from 3 and 1 to 1 and 2. -/
theorem resolve_attack_losses_sum_witness :
    resolve_attack 0 1 scenario2 3 2 (rngOfList [3, 1, 0])
      = some (2, [⟨"Brasil", "Vermelho", 1, 0⟩, ⟨"Canada", "Azul", 2, 0⟩]) ∧
    ∃ (A D A2 D2 : Territory) (r : Round) (attackerDice defenderDice comparisons : Int),
      scenario2[(0 : Int).toNat]? = some A ∧ scenario2[(1 : Int).toNat]? = some D ∧
      attackerDice = attacker_dice_of A.troops 3 ∧
      defenderDice = defender_dice_of D.troops 2 ∧
      attackerDice = min (A.troops - 1) 3 ∧
      defenderDice = max 1 (min D.troops 2) ∧
      comparisons = min attackerDice defenderDice ∧
      roll_and_compare attackerDice defenderDice (rngOfList [3, 1, 0]) = some r ∧
      0 ≤ r.attacker_losses ∧ 0 ≤ r.defender_losses ∧
      r.attacker_losses + r.defender_losses = comparisons ∧
      [(⟨"Brasil", "Vermelho", 1, 0⟩ : Territory), ⟨"Canada", "Azul", 2, 0⟩][(0 : Int).toNat]?
        = some A2 ∧
      [(⟨"Brasil", "Vermelho", 1, 0⟩ : Territory), ⟨"Canada", "Azul", 2, 0⟩][(1 : Int).toNat]?
        = some D2 ∧
      ((2 : Int) = 2 ↔ D.troops - r.defender_losses ≤ 0) ∧
      ((2 : Int) = 1 → A2.troops = A.troops - r.attacker_losses ∧
        D2.troops = D.troops - r.defender_losses) ∧
      ((2 : Int) = 2 → A2.troops + D2.troops = A.troops - r.attacker_losses) :=
  ⟨by decide,
    resolve_attack_losses_sum 0 1 scenario2
      [⟨"Brasil", "Vermelho", 1, 0⟩, ⟨"Canada", "Azul", 2, 0⟩] 3 2 (rngOfList [3, 1, 0]) 2
      (by decide) (Or.inr rfl)⟩

/-- C9: after a call that returns 1 the attacker has its troops minus its
losses, the defender its troops minus its losses, a positive number, and both
territories keep their owners. -/
theorem resolve_attack_repelled (attacker_idx defender_idx : Int)
    (terr terr1 : List Territory) (max_attacker_dice max_defender_dice : Int) (g : Rng)
    (h : resolve_attack attacker_idx defender_idx terr max_attacker_dice max_defender_dice g
      = some (1, terr1)) :
    ∃ (A D A1 D1 : Territory) (r : Round),
      terr[attacker_idx.toNat]? = some A ∧ terr[defender_idx.toNat]? = some D ∧
      roll_and_compare (attacker_dice_of A.troops max_attacker_dice)
        (defender_dice_of D.troops max_defender_dice) g = some r ∧
      terr1[attacker_idx.toNat]? = some A1 ∧ terr1[defender_idx.toNat]? = some D1 ∧
      A1.troops = A.troops - r.attacker_losses ∧
      D1.troops = D.troops - r.defender_losses ∧ 0 < D1.troops ∧
      A1.owner_id = A.owner_id ∧ D1.owner_id = D.owner_id := by
  obtain ⟨A, D, r, ha0, ha1, hd0, hd1, hA, hD, hown, _, _, hr, hcase⟩ :=
    resolve_attack_resolved attacker_idx defender_idx terr terr1 max_attacker_dice
      max_defender_dice g 1 h (by omega)
  have hne := cells_distinct terr _ _ A D hA hD hown
  have hia : attacker_idx.toNat < terr.length := by omega
  have hid : defender_idx.toNat < terr.length := by omega
  rcases hcase with ⟨h2, _, _⟩ | ⟨_, hpos, hpost⟩
  · omega
  · obtain ⟨hcA, hcD⟩ := cells_after terr _ _
      { A with troops := A.troops - r.attacker_losses }
      { D with troops := D.troops - r.defender_losses } hia hid hne
    rw [← hpost] at hcA hcD
    exact ⟨A, D, _, _, r, hA, hD, hr, hcA, hcD, rfl, rfl, hpos, rfl, rfl⟩

/-- C9, at attacker 5 troops against defender 6 troops, dice 6, 5, 4 against
6, 3: the attacker ends with 4 troops and the defender with 5. -/
theorem resolve_attack_repelled_witness :
    resolve_attack 0 1 scenario1 3 2 (rngOfList [5, 4, 3, 5, 2])
      = some (1, [⟨"Brasil", "Vermelho", 4, 0⟩, ⟨"EUA", "Azul", 5, 1⟩]) ∧
    ∃ (A D A1 D1 : Territory) (r : Round),
      scenario1[(0 : Int).toNat]? = some A ∧ scenario1[(1 : Int).toNat]? = some D ∧
      roll_and_compare (attacker_dice_of A.troops 3) (defender_dice_of D.troops 2)
        (rngOfList [5, 4, 3, 5, 2]) = some r ∧
      [(⟨"Brasil", "Vermelho", 4, 0⟩ : Territory), ⟨"EUA", "Azul", 5, 1⟩][(0 : Int).toNat]?
        = some A1 ∧
      [(⟨"Brasil", "Vermelho", 4, 0⟩ : Territory), ⟨"EUA", "Azul", 5, 1⟩][(1 : Int).toNat]?
        = some D1 ∧
      A1.troops = A.troops - r.attacker_losses ∧
      D1.troops = D.troops - r.defender_losses ∧ 0 < D1.troops ∧
      A1.owner_id = A.owner_id ∧ D1.owner_id = D.owner_id :=
  ⟨by decide,
    resolve_attack_repelled 0 1 scenario1
      [⟨"Brasil", "Vermelho", 4, 0⟩, ⟨"EUA", "Azul", 5, 1⟩] 3 2 (rngOfList [5, 4, 3, 5, 2])
      (by decide)⟩

/-! ## Claims on `check_and_update_mission` -/

/-- The flag returned by `check_and_update_mission` is the `completed` field it
leaves in the mission. -/
theorem check_and_update_mission_flag (m : Mission) (arr : List Territory)
    (players : List Player) (player_count mission_owner_id : Int) :
    (check_and_update_mission m arr players player_count mission_owner_id).1
      = (check_and_update_mission m arr players player_count mission_owner_id).2.completed := by
  rcases m with ⟨description, type, target_player_id, required_count, completed⟩
  cases completed <;> cases type <;> simp only [check_and_update_mission] <;>
    repeat' (first | rfl | contradiction | split)

/-- C5: a completed mission evaluates to true and stays as it is, whatever the
territories, players and owner id; hence once a call has returned true, every
later call on the resulting mission returns true and leaves it unchanged. -/
theorem check_and_update_mission_sticky (m : Mission) (arr arr2 : List Territory)
    (players players2 : List Player) (player_count player_count2 : Int)
    (mission_owner_id mission_owner_id2 : Int) :
    (m.completed = true →
      check_and_update_mission m arr players player_count mission_owner_id = (true, m)) ∧
    ((check_and_update_mission m arr players player_count mission_owner_id).1 = true →
      (check_and_update_mission m arr players player_count mission_owner_id).2.completed = true ∧
      check_and_update_mission
          (check_and_update_mission m arr players player_count mission_owner_id).2
          arr2 players2 player_count2 mission_owner_id2
        = (true, (check_and_update_mission m arr players player_count mission_owner_id).2)) := by
  have hdone : ∀ (m1 : Mission) (arr1 : List Territory) (players1 : List Player)
      (pc oid : Int), m1.completed = true →
      check_and_update_mission m1 arr1 players1 pc oid = (true, m1) := by
    intro m1 arr1 players1 pc oid hc
    simp only [check_and_update_mission, hc, if_true]
  refine ⟨hdone m arr players player_count mission_owner_id, ?_⟩
  intro hret
  have hflag : (check_and_update_mission m arr players player_count mission_owner_id).2.completed
      = true := by
    rw [← check_and_update_mission_flag]
    exact hret
  exact ⟨hflag, hdone _ arr2 players2 player_count2 mission_owner_id2 hflag⟩

/-- C5, at a completed "conquer 3 territories" mission whose owner holds two
territories, and at the call that completed it followed by a call on those
two territories. -/
theorem check_and_update_mission_sticky_witness :
    check_and_update_mission { mission_conquer3 with completed := true } scenario5
      demo_players 3 0 = (true, { mission_conquer3 with completed := true }) ∧
    (check_and_update_mission mission_conquer3 scenario5_after demo_players 3 0).1 = true ∧
    (check_and_update_mission mission_conquer3 scenario5_after demo_players 3 0).2.completed
      = true ∧
    check_and_update_mission
        (check_and_update_mission mission_conquer3 scenario5_after demo_players 3 0).2
        scenario5 demo_players 3 0
      = (true, (check_and_update_mission mission_conquer3 scenario5_after demo_players 3 0).2) :=
  ⟨(check_and_update_mission_sticky { mission_conquer3 with completed := true } scenario5
      scenario5 demo_players demo_players 3 3 0 0).1 rfl,
    by decide,
    (check_and_update_mission_sticky mission_conquer3 scenario5_after scenario5
      demo_players demo_players 3 3 0 0).2 (by decide)⟩

/-- The counting loop of `count_territories_of_player`, from any count. -/
theorem count_foldl (player_id : Int) (arr : List Territory) : ∀ c : Int,
    arr.foldl (fun c t => if t.owner_id = player_id then c + 1 else c) c
      = c + (arr.countP (fun t => decide (t.owner_id = player_id)) : Nat) := by
  induction arr with
  | nil => intro c; simp
  | cons t rest ih =>
    intro c
    rw [List.foldl_cons, ih, List.countP_cons]
    by_cases ht : t.owner_id = player_id
    · simp only [ht, if_true, decide_True]
      push_cast
      omega
    · simp only [ht, if_false, decide_False]
      simp

/-- C10: a pending mission of kind `MISSION_CONQUER_TERRITORIES` evaluates to
true exactly when the number of territories whose `owner_id` is the mission
owner's id is at least `required_count`. -/
theorem check_and_update_mission_conquer (m : Mission) (arr : List Territory)
    (players : List Player) (player_count mission_owner_id : Int)
    (hpending : m.completed = false) (hkind : m.type = .MISSION_CONQUER_TERRITORIES) :
    (check_and_update_mission m arr players player_count mission_owner_id).1 = true ↔
      m.required_count ≤ ((arr.filter fun t => decide (t.owner_id = mission_owner_id)).length : Nat) := by
  have hcount : count_territories_of_player arr mission_owner_id
      = ((arr.filter fun t => decide (t.owner_id = mission_owner_id)).length : Nat) := by
    unfold count_territories_of_player
    rw [count_foldl, List.countP_eq_length_filter]
    simp
  unfold check_and_update_mission
  simp only [hpending, hkind, hcount, Bool.false_eq_true, if_false, ge_iff_le]
  by_cases hreq : m.required_count
      ≤ ((arr.filter fun t => decide (t.owner_id = mission_owner_id)).length : Nat)
  · rw [if_pos hreq]
    exact ⟨fun _ => hreq, fun _ => rfl⟩
  · rw [if_neg hreq]
    exact ⟨fun hf => absurd hf Bool.false_ne_true, fun hle => absurd hle hreq⟩


/-- C10, at required 3: false while the owner holds 2 of 6 territories, true
once it holds 3. -/
theorem check_and_update_mission_conquer_witness :
    (mission_conquer3.completed = false ∧
      mission_conquer3.type = .MISSION_CONQUER_TERRITORIES) ∧
    (check_and_update_mission mission_conquer3 scenario5 demo_players 3 0).1 = false ∧
    ((check_and_update_mission mission_conquer3 scenario5_after demo_players 3 0).1 = true ↔
      mission_conquer3.required_count
        ≤ ((scenario5_after.filter fun t => decide (t.owner_id = 0)).length : Nat)) ∧
    (check_and_update_mission mission_conquer3 scenario5_after demo_players 3 0).1 = true :=
  ⟨⟨rfl, rfl⟩, by decide,
    check_and_update_mission_conquer mission_conquer3 scenario5_after demo_players 3 0 rfl rfl,
    by decide⟩

/-- The scan of `is_player_eliminated` answers true when no cell has the owner. -/
theorem is_player_eliminated_iff (player_id : Int) (arr : List Territory) :
    is_player_eliminated arr player_id = true ↔ ∀ t ∈ arr, t.owner_id ≠ player_id := by
  induction arr with
  | nil => simp [is_player_eliminated]
  | cons t rest ih =>
    by_cases ht : t.owner_id = player_id
    · simp [is_player_eliminated, ht]
    · simp [is_player_eliminated, ht, ih]

/-- C11: a pending mission of kind `MISSION_ELIMINATE_PLAYER` evaluates to true
exactly when `0 ≤ target_player_id < player_count` and no territory has the
target as owner; with a target outside `[0, player_count)` it returns false and
leaves the mission, still pending, as it was. -/
theorem check_and_update_mission_eliminate (m : Mission) (arr : List Territory)
    (players : List Player) (player_count mission_owner_id : Int)
    (hpending : m.completed = false) (hkind : m.type = .MISSION_ELIMINATE_PLAYER) :
    ((check_and_update_mission m arr players player_count mission_owner_id).1 = true ↔
      0 ≤ m.target_player_id ∧ m.target_player_id < player_count ∧
        ∀ t ∈ arr, t.owner_id ≠ m.target_player_id) ∧
    (m.target_player_id < 0 ∨ player_count ≤ m.target_player_id →
      check_and_update_mission m arr players player_count mission_owner_id = (false, m)) := by
  unfold check_and_update_mission
  simp only [hpending, hkind, Bool.false_eq_true, if_false, ge_iff_le]
  by_cases hrange : m.target_player_id < 0 ∨ player_count ≤ m.target_player_id
  · rw [if_pos hrange]
    refine ⟨⟨fun hf => absurd hf Bool.false_ne_true, fun hc => ?_⟩, fun _ => rfl⟩
    omega
  · rw [if_neg hrange]
    refine ⟨?_, fun hc => absurd hc hrange⟩
    by_cases hel : is_player_eliminated arr m.target_player_id = true
    · rw [if_pos hel]
      exact ⟨fun _ => ⟨by omega, by omega, (is_player_eliminated_iff _ _).mp hel⟩, fun _ => rfl⟩
    · rw [if_neg hel]
      exact ⟨fun hf => absurd hf Bool.false_ne_true,
        fun hc => absurd ((is_player_eliminated_iff _ _).mpr hc.2.2) hel⟩

/-- C11, at "eliminate player 2": false while player 2 holds territories, true
once it holds none; false for target 7 among 3 players. -/
theorem check_and_update_mission_eliminate_witness :
    (mission_eliminate2.completed = false ∧
      mission_eliminate2.type = .MISSION_ELIMINATE_PLAYER) ∧
    (check_and_update_mission mission_eliminate2 scenario5 demo_players 3 0).1 = false ∧
    ((check_and_update_mission mission_eliminate2 scenario6_after demo_players 3 0).1 = true ↔
      0 ≤ mission_eliminate2.target_player_id ∧ mission_eliminate2.target_player_id < 3 ∧
        ∀ t ∈ scenario6_after, t.owner_id ≠ mission_eliminate2.target_player_id) ∧
    (check_and_update_mission mission_eliminate2 scenario6_after demo_players 3 0).1 = true ∧
    check_and_update_mission { mission_eliminate2 with target_player_id := 7 } scenario6_after
      demo_players 3 0 = (false, { mission_eliminate2 with target_player_id := 7 }) :=
  ⟨⟨rfl, rfl⟩, by decide,
    (check_and_update_mission_eliminate mission_eliminate2 scenario6_after demo_players 3 0
      rfl rfl).1,
    by decide,
    (check_and_update_mission_eliminate { mission_eliminate2 with target_player_id := 7 }
      scenario6_after demo_players 3 0 rfl rfl).2 (by decide)⟩

/-- A value in the range of `int` is its own 32-bit reduction. -/
theorem wrap32_of_range (x : Int) (hlo : -2 ^ 31 ≤ x) (hhi : x < 2 ^ 31) : wrap32 x = x := by
  unfold wrap32
  omega

/-- The summing loop of `total_troops_of_player`, from any non-negative sum,
while the exact sum stays below `2 ^ 31`. -/
theorem total_foldl (player_id : Int) (arr : List Territory) : ∀ acc : Int, 0 ≤ acc →
    (∀ t ∈ arr, 0 ≤ t.troops) →
    acc + ((arr.filter fun t => decide (t.owner_id = player_id)).map Territory.troops).sum
      < 2 ^ 31 →
    arr.foldl (fun t x => if x.owner_id = player_id then wrap32 (t + x.troops) else t) acc
      = acc + ((arr.filter fun t => decide (t.owner_id = player_id)).map Territory.troops).sum := by
  induction arr with
  | nil => intro acc _ _ _; simp
  | cons t rest ih =>
    intro acc hacc hpos hfit
    have ht : 0 ≤ t.troops := hpos t (List.mem_cons_self t rest)
    have hrest : ∀ u ∈ rest, 0 ≤ u.troops := fun u hu => hpos u (List.mem_cons_of_mem t hu)
    have hsum : 0 ≤ ((rest.filter fun t => decide (t.owner_id = player_id)).map
        Territory.troops).sum := by
      apply List.sum_nonneg
      intro x hx
      obtain ⟨u, hu, rfl⟩ := List.mem_map.mp hx
      exact hrest u (List.mem_filter.mp hu).1
    rw [List.foldl_cons]
    by_cases hown : t.owner_id = player_id
    · have hfilter : ((t :: rest).filter fun t => decide (t.owner_id = player_id))
          = t :: rest.filter fun t => decide (t.owner_id = player_id) := by
        simp [List.filter_cons, hown]
      rw [hfilter, List.map_cons, List.sum_cons] at hfit ⊢
      rw [if_pos hown, wrap32_of_range (acc + t.troops) (by omega) (by omega),
        ih (acc + t.troops) (by omega) hrest (by omega)]
      omega
    · have hfilter : ((t :: rest).filter fun t => decide (t.owner_id = player_id))
          = rest.filter fun t => decide (t.owner_id = player_id) := by
        simp [List.filter_cons, hown]
      rw [hfilter] at hfit ⊢
      rw [if_neg hown, ih acc hacc hrest hfit]

/-- C12: a pending mission of kind `MISSION_HAVE_TROOPS_TOTAL` evaluates to
true exactly when the sum accumulated in a 32-bit `int` is at least
`required_count`; when the troop counts are `≥ 0` and the owner's total is
below `2 ^ 31`, that is the sum of the troops of the owner's territories. -/
theorem check_and_update_mission_troops (m : Mission) (arr : List Territory)
    (players : List Player) (player_count mission_owner_id : Int)
    (hpending : m.completed = false) (hkind : m.type = .MISSION_HAVE_TROOPS_TOTAL) :
    ((check_and_update_mission m arr players player_count mission_owner_id).1 = true ↔
      m.required_count ≤ total_troops_of_player arr mission_owner_id) ∧
    ((∀ t ∈ arr, 0 ≤ t.troops) →
      ((arr.filter fun t => decide (t.owner_id = mission_owner_id)).map Territory.troops).sum
        < 2 ^ 31 →
      ((check_and_update_mission m arr players player_count mission_owner_id).1 = true ↔
        m.required_count ≤
          ((arr.filter fun t => decide (t.owner_id = mission_owner_id)).map
            Territory.troops).sum)) := by
  have hcode : (check_and_update_mission m arr players player_count mission_owner_id).1 = true ↔
      m.required_count ≤ total_troops_of_player arr mission_owner_id := by
    unfold check_and_update_mission
    simp only [hpending, hkind, Bool.false_eq_true, if_false, ge_iff_le]
    by_cases hreq : m.required_count ≤ total_troops_of_player arr mission_owner_id
    · rw [if_pos hreq]
      exact ⟨fun _ => hreq, fun _ => rfl⟩
    · rw [if_neg hreq]
      exact ⟨fun hf => absurd hf Bool.false_ne_true, fun hle => absurd hle hreq⟩
  refine ⟨hcode, fun hpos hfit => ?_⟩
  have hsum := total_foldl mission_owner_id arr 0 (le_refl 0) hpos (by omega)
  rw [zero_add] at hsum
  rw [hcode]
  unfold total_troops_of_player
  rw [hsum]

/-- C12, at "hold 8 troops": player 0 holds 5 + 3 troops in `scenario5`. -/
theorem check_and_update_mission_troops_witness :
    (mission_troops8.completed = false ∧ mission_troops8.type = .MISSION_HAVE_TROOPS_TOTAL) ∧
    (∀ t ∈ scenario5, 0 ≤ t.troops) ∧
    ((scenario5.filter fun t => decide (t.owner_id = 0)).map Territory.troops).sum < 2 ^ 31 ∧
    ((check_and_update_mission mission_troops8 scenario5 demo_players 3 0).1 = true ↔
      mission_troops8.required_count ≤
        ((scenario5.filter fun t => decide (t.owner_id = 0)).map Territory.troops).sum) ∧
    (check_and_update_mission mission_troops8 scenario5 demo_players 3 0).1 = true :=
  ⟨⟨rfl, rfl⟩, by decide, by decide,
    (check_and_update_mission_troops mission_troops8 scenario5 demo_players 3 0 rfl rfl).2
      (by decide) (by decide),
    by decide⟩

/-- C12 fails as stated: two territories of player 0 with `2 ^ 30` troops each
sum to `2 ^ 31`, at least the required 1, and the `int` sum wraps to
`-2 ^ 31`, so the pending mission evaluates to false. -/
theorem troops_total_wraps_counterexample :
    mission_troops1.completed = false ∧ mission_troops1.type = .MISSION_HAVE_TROOPS_TOTAL ∧
    ((scenario_large.filter fun t => decide (t.owner_id = 0)).map Territory.troops).sum
      = 2147483648 ∧
    mission_troops1.required_count ≤
      ((scenario_large.filter fun t => decide (t.owner_id = 0)).map Territory.troops).sum ∧
    total_troops_of_player scenario_large 0 = -2147483648 ∧
    check_and_update_mission mission_troops1 scenario_large demo_players 3 0
      = (false, mission_troops1) := by
  refine ⟨rfl, rfl, ?_, ?_, ?_, ?_⟩ <;> decide

/-- C13: the flag returned by `check_and_update_mission` is the `completed`
field of the mission afterwards; on false the mission is unchanged, on true it
is the mission with `completed` set, so `description`, `type`,
`target_player_id` and `required_count` never change. The territories are only
read: the function yields no territory array. -/
theorem check_and_update_mission_frame (m : Mission) (arr : List Territory)
    (players : List Player) (player_count mission_owner_id : Int) :
    (check_and_update_mission m arr players player_count mission_owner_id).1
      = (check_and_update_mission m arr players player_count mission_owner_id).2.completed ∧
    ((check_and_update_mission m arr players player_count mission_owner_id).1 = false →
      (check_and_update_mission m arr players player_count mission_owner_id).2 = m) ∧
    ((check_and_update_mission m arr players player_count mission_owner_id).1 = true →
      (check_and_update_mission m arr players player_count mission_owner_id).2
        = { m with completed := true }) ∧
    (check_and_update_mission m arr players player_count mission_owner_id).2.description
      = m.description ∧
    (check_and_update_mission m arr players player_count mission_owner_id).2.type = m.type ∧
    (check_and_update_mission m arr players player_count mission_owner_id).2.target_player_id
      = m.target_player_id ∧
    (check_and_update_mission m arr players player_count mission_owner_id).2.required_count
      = m.required_count := by
  rcases m with ⟨description, type, target_player_id, required_count, completed⟩
  cases completed <;> cases type <;> simp only [check_and_update_mission] <;>
    split_ifs <;> simp_all

/-- C13, at "conquer 3 territories": the call that leaves it pending and the
call that completes it. -/
theorem check_and_update_mission_frame_witness :
    (check_and_update_mission mission_conquer3 scenario5 demo_players 3 0).1 = false ∧
    (check_and_update_mission mission_conquer3 scenario5 demo_players 3 0).2
      = mission_conquer3 ∧
    (check_and_update_mission mission_conquer3 scenario5_after demo_players 3 0).1 = true ∧
    (check_and_update_mission mission_conquer3 scenario5_after demo_players 3 0).2
      = { mission_conquer3 with completed := true } :=
  ⟨by decide,
    (check_and_update_mission_frame mission_conquer3 scenario5 demo_players 3 0).2.1
      (by decide),
    by decide,
    (check_and_update_mission_frame mission_conquer3 scenario5_after demo_players 3 0).2.2.1
      (by decide)⟩

/-- A call of `resolve_attack` writes at most the attacker and defender cells,
and leaves the owner of the attacker cell. -/
theorem resolve_attack_writes (attacker_idx defender_idx : Int) (terr terr1 : List Territory)
    (max_attacker_dice max_defender_dice : Int) (g : Rng) (ret : Int)
    (h : resolve_attack attacker_idx defender_idx terr max_attacker_dice max_defender_dice g
      = some (ret, terr1)) :
    terr1 = terr ∨
    ∃ A D A1 D1 : Territory,
      0 ≤ attacker_idx ∧ attacker_idx < terr.length ∧
      0 ≤ defender_idx ∧ defender_idx < terr.length ∧
      terr[attacker_idx.toNat]? = some A ∧ terr[defender_idx.toNat]? = some D ∧
      A.owner_id ≠ D.owner_id ∧ A1.owner_id = A.owner_id ∧
      terr1 = (terr.set attacker_idx.toNat A1).set defender_idx.toNat D1 := by
  by_cases hret : ret = 0
  · subst hret
    exact Or.inl (resolve_attack_zero _ _ _ _ _ _ _ h)
  · obtain ⟨A, D, r, ha0, ha1, hd0, hd1, hA, hD, hown, _, _, _, hcase⟩ :=
      resolve_attack_resolved attacker_idx defender_idx terr terr1 max_attacker_dice
        max_defender_dice g ret h hret
    rcases hcase with ⟨_, _, hpost⟩ | ⟨_, _, hpost⟩
    · refine Or.inr ⟨A, D, _, _, ha0, ha1, hd0, hd1, hA, hD, hown, ?_, hpost⟩
      rfl
    · refine Or.inr ⟨A, D, _, _, ha0, ha1, hd0, hd1, hA, hD, hown, ?_, hpost⟩
      rfl

/-- C14: a call of `resolve_attack` keeps the number of territories, every
territory at an index other than the attacker's and the defender's, and the
owner of the attacker's territory. -/
theorem resolve_attack_frame (attacker_idx defender_idx : Int) (terr terr1 : List Territory)
    (max_attacker_dice max_defender_dice : Int) (g : Rng) (ret : Int)
    (h : resolve_attack attacker_idx defender_idx terr max_attacker_dice max_defender_dice g
      = some (ret, terr1)) :
    terr1.length = terr.length ∧
    (∀ k : Nat, (k : Int) ≠ attacker_idx → (k : Int) ≠ defender_idx → terr1[k]? = terr[k]?) ∧
    (terr1[attacker_idx.toNat]?).map Territory.owner_id
      = (terr[attacker_idx.toNat]?).map Territory.owner_id := by
  rcases resolve_attack_writes attacker_idx defender_idx terr terr1 max_attacker_dice
    max_defender_dice g ret h with rfl | ⟨A, D, A1, D1, ha0, ha1, hd0, hd1, hA, hD, hown, hA1, rfl⟩
  · exact ⟨rfl, fun _ _ _ => rfl, rfl⟩
  · have hne := cells_distinct terr _ _ A D hA hD hown
    refine ⟨by simp, ?_, ?_⟩
    · intro k hka hkd
      have h1 : defender_idx.toNat ≠ k := by omega
      have h2 : attacker_idx.toNat ≠ k := by omega
      rw [List.getElem?_set_ne h1, List.getElem?_set_ne h2]
    · have hcell := (cells_after terr _ _ A1 D1 (by omega) (by omega) hne).1
      rw [hcell, hA, Option.map_some', Option.map_some', hA1]

/-- C14, at Argentina (cell 1, 3 troops) attacking Canada (cell 3, 2 troops)
among six territories, dice 6, 1 against 3, 3. -/
theorem resolve_attack_frame_witness :
    resolve_attack 1 3 scenario5 3 2 (rngOfList [5, 0, 2, 2]) = some (1, scenario5_repelled) ∧
    scenario5_repelled.length = scenario5.length ∧
    (∀ k : Nat, (k : Int) ≠ 1 → (k : Int) ≠ 3 → scenario5_repelled[k]? = scenario5[k]?) ∧
    (scenario5_repelled[(1 : Int).toNat]?).map Territory.owner_id
      = (scenario5[(1 : Int).toNat]?).map Territory.owner_id :=
  ⟨by decide,
    resolve_attack_frame 1 3 scenario5 scenario5_repelled 3 2 (rngOfList [5, 0, 2, 2]) 1
      (by decide)⟩

/-- C15: on a value `r ≥ 0` of `rand()`, `roll_die` returns `r mod 6 + 1`, a
value from 1 to 6. -/
theorem roll_die_range (g : Rng) (h : 0 ≤ g 0) :
    (roll_die g).1 = g 0 % 6 + 1 ∧ 1 ≤ (roll_die g).1 ∧ (roll_die g).1 ≤ 6 := by
  have hval : (roll_die g).1 = g 0 % 6 + 1 := by
    simp only [roll_die, rand]
    rw [Int.tmod_eq_emod h (by decide)]
  rw [hval]
  omega

/-- C15, at `rand()` returning 11: the die shows 6. -/
theorem roll_die_range_witness :
    0 ≤ rngOfList [11] 0 ∧ (roll_die (rngOfList [11])).1 = rngOfList [11] 0 % 6 + 1 ∧
      1 ≤ (roll_die (rngOfList [11])).1 ∧ (roll_die (rngOfList [11])).1 ≤ 6 :=
  ⟨by decide, roll_die_range (rngOfList [11]) (by decide)⟩

/-- C16: in a resolved attack the attacker's losses are at most its troops
minus 1 and the defender's losses at most `max 1 troops`: at most the
defender's troops when it has at least 1, and possibly 1 when it has none,
because `defender_dice` is raised to 1. -/
theorem resolve_attack_losses_bounded (attacker_idx defender_idx : Int)
    (terr terr1 : List Territory) (max_attacker_dice max_defender_dice : Int) (g : Rng)
    (ret : Int)
    (h : resolve_attack attacker_idx defender_idx terr max_attacker_dice max_defender_dice g
      = some (ret, terr1)) (hret : ret = 1 ∨ ret = 2) :
    ∃ (A D : Territory) (r : Round) (attackerDice defenderDice : Int),
      terr[attacker_idx.toNat]? = some A ∧ terr[defender_idx.toNat]? = some D ∧
      attackerDice = attacker_dice_of A.troops max_attacker_dice ∧
      defenderDice = defender_dice_of D.troops max_defender_dice ∧
      roll_and_compare attackerDice defenderDice g = some r ∧
      r.attacker_losses + r.defender_losses ≤ min attackerDice defenderDice ∧
      attackerDice ≤ A.troops - 1 ∧ defenderDice ≤ max 1 D.troops ∧
      r.attacker_losses ≤ A.troops - 1 ∧ r.attacker_losses ≤ A.troops ∧
      r.defender_losses ≤ max 1 D.troops ∧
      (1 ≤ D.troops → defenderDice ≤ D.troops ∧ r.defender_losses ≤ D.troops) := by
  obtain ⟨A, D, r, _, _, _, _, hA, hD, _, htr, hdice, hr, _⟩ :=
    resolve_attack_resolved attacker_idx defender_idx terr terr1 max_attacker_dice
      max_defender_dice g ret h (by omega)
  obtain ⟨hal, hdl, hsum⟩ := roll_and_compare_losses _ _ g r hr
  have hadice := attacker_dice_of_eq A.troops max_attacker_dice
  have hddice := defender_dice_of_eq D.troops max_defender_dice
  refine ⟨A, D, r, _, _, hA, hD, rfl, rfl, hr, ?_, ?_, ?_, ?_, ?_, ?_, ?_⟩
  · omega
  · omega
  · omega
  · omega
  · omega
  · omega
  · intro hD1
    omega

/-- C16, at attacker 5 troops against defender 6 troops, dice 6, 5, 4 against 6, 3. -/
theorem resolve_attack_losses_bounded_witness :
    resolve_attack 0 1 scenario1 3 2 (rngOfList [5, 4, 3, 5, 2])
      = some (1, [⟨"Brasil", "Vermelho", 4, 0⟩, ⟨"EUA", "Azul", 5, 1⟩]) ∧
    ∃ (A D : Territory) (r : Round) (attackerDice defenderDice : Int),
      scenario1[(0 : Int).toNat]? = some A ∧ scenario1[(1 : Int).toNat]? = some D ∧
      attackerDice = attacker_dice_of A.troops 3 ∧
      defenderDice = defender_dice_of D.troops 2 ∧
      roll_and_compare attackerDice defenderDice (rngOfList [5, 4, 3, 5, 2]) = some r ∧
      r.attacker_losses + r.defender_losses ≤ min attackerDice defenderDice ∧
      attackerDice ≤ A.troops - 1 ∧ defenderDice ≤ max 1 D.troops ∧
      r.attacker_losses ≤ A.troops - 1 ∧ r.attacker_losses ≤ A.troops ∧
      r.defender_losses ≤ max 1 D.troops ∧
      (1 ≤ D.troops → defenderDice ≤ D.troops ∧ r.defender_losses ≤ D.troops) :=
  ⟨by decide,
    resolve_attack_losses_bounded 0 1 scenario1
      [⟨"Brasil", "Vermelho", 4, 0⟩, ⟨"EUA", "Azul", 5, 1⟩] 3 2 (rngOfList [5, 4, 3, 5, 2]) 1
      (by decide) (Or.inl rfl)⟩

/-- C16 fails as stated: against a territory with 0 troops the defender still
rolls one die, and losing it (die 1 against die 6) puts its losses, 1, above
its troops, 0, in an attack that is resolved from troop counts `≥ 0`. -/
theorem resolve_attack_losses_counterexample :
    (∀ t ∈ scenario_neutral, 0 ≤ t.troops) ∧
    resolve_attack 0 1 scenario_neutral 3 2 (rngOfList [5, 0])
      = some (2, [⟨"Brasil", "Vermelho", 1, 0⟩, ⟨"", "", 1, 0⟩]) ∧
    defender_dice_of 0 2 = 1 ∧
    roll_and_compare (attacker_dice_of 2 3) (defender_dice_of 0 2) (rngOfList [5, 0])
      = some { adice := [6, 0, 0], ddice := [1, 0], attacker_losses := 0,
               defender_losses := 1 } ∧
    ¬ ((1 : Int) ≤ 0) := by
  refine ⟨?_, ?_, ?_, ?_, ?_⟩ <;> decide

/-- C17: on an array of at least `n` cells `sort_desc` returns; the first `n`
cells end in non-increasing order and hold the values they held, the other
cells and the length are as before. -/
theorem sort_desc_sorts (arr : List Int) (n : Int) (hn : n ≤ arr.length) :
    ∃ out : List Int, sort_desc arr n = some out ∧ out.length = arr.length ∧
      (out.take n.toNat).Sorted (· ≥ ·) ∧ (out.take n.toNat).Perm (arr.take n.toNat) ∧
      out.drop n.toNat = arr.drop n.toNat := by
  obtain ⟨R, hR, hsorted, hperm⟩ := sort_desc_spec arr n hn
  have hlen : R.length = n.toNat := by
    rw [hperm.length_eq, List.length_take]
    omega
  have htake : (R ++ arr.drop n.toNat).take n.toNat = R := by
    rw [← hlen]
    exact List.take_left' rfl
  have hdrop : (R ++ arr.drop n.toNat).drop n.toNat = arr.drop n.toNat := by
    rw [← hlen]
    exact List.drop_left' rfl
  refine ⟨R ++ arr.drop n.toNat, hR, ?_, ?_, ?_, hdrop⟩
  · rw [List.length_append, List.length_drop, hlen]
    omega
  · rw [htake]
    exact hsorted
  · rw [htake]
    exact hperm

/-- C17, at the first 5 of 6 cells. -/
theorem sort_desc_sorts_witness :
    (5 : Int) ≤ ([2, 9, 4, 9, 1, 7] : List Int).length ∧
    sort_desc [2, 9, 4, 9, 1, 7] 5 = some [9, 9, 4, 2, 1, 7] ∧
    ∃ out : List Int, sort_desc [2, 9, 4, 9, 1, 7] 5 = some out ∧
      out.length = ([2, 9, 4, 9, 1, 7] : List Int).length ∧
      (out.take (5 : Int).toNat).Sorted (· ≥ ·) ∧
      (out.take (5 : Int).toNat).Perm (([2, 9, 4, 9, 1, 7] : List Int).take (5 : Int).toNat) ∧
      out.drop (5 : Int).toNat = ([2, 9, 4, 9, 1, 7] : List Int).drop (5 : Int).toNat :=
  ⟨by decide, by decide, sort_desc_sorts [2, 9, 4, 9, 1, 7] 5 (by decide)⟩

/-- A dice round that succeeds went through both filling loops, both sorts and
the comparison loop without leaving a buffer. -/
theorem roll_and_compare_steps (ad dd : Int) (g : Rng) (r : Round)
    (h : roll_and_compare ad dd g = some r) :
    ∃ (adice0 ddice0 adice ddice : List Int) (g1 g2 : Rng) (losses : Int × Int),
      loop roll_step ad.toNat 0 ([0, 0, 0], g) = some (adice0, g1) ∧
      loop roll_step dd.toNat 0 ([0, 0], g1) = some (ddice0, g2) ∧
      sort_desc adice0 ad = some adice ∧ sort_desc ddice0 dd = some ddice ∧
      loop (compare_step adice ddice) (if ad < dd then ad else dd).toNat 0 (0, 0)
        = some losses := by
  unfold roll_and_compare at h
  simp only [Option.bind_eq_some, Option.map_eq_some', Prod.exists] at h
  obtain ⟨adice0, g1, h1, ddice0, g2, h2, adice, h3, ddice, h4, al, dl, h5, _⟩ := h
  exact ⟨adice0, ddice0, adice, ddice, g1, g2, (al, dl), h1, h2, h3, h4, h5⟩

/-- C18: with limits of at most 3 and 2, an attack that passes the guards has
between 1 and 3 attacker dice and between 1 and 2 defender dice; the two
filling loops, the two sorts and the comparison loop stay inside `adice[3]`
and `ddice[2]`, and the call returns 1 or 2. -/
theorem resolve_attack_in_bounds (attacker_idx defender_idx : Int) (terr : List Territory)
    (max_attacker_dice max_defender_dice : Int) (g : Rng) (A D : Territory)
    (hma : max_attacker_dice ≤ 3) (hmd : max_defender_dice ≤ 2)
    (ha0 : 0 ≤ attacker_idx) (ha1 : attacker_idx < terr.length)
    (hd0 : 0 ≤ defender_idx) (hd1 : defender_idx < terr.length)
    (hA : terr[attacker_idx.toNat]? = some A) (hD : terr[defender_idx.toNat]? = some D)
    (hown : A.owner_id ≠ D.owner_id) (htr : 2 ≤ A.troops)
    (hdice : 1 ≤ attacker_dice_of A.troops max_attacker_dice) :
    ∃ (attacker_dice defender_dice : Int),
      attacker_dice = attacker_dice_of A.troops max_attacker_dice ∧
      defender_dice = defender_dice_of D.troops max_defender_dice ∧
      1 ≤ attacker_dice ∧ attacker_dice ≤ 3 ∧ 1 ≤ defender_dice ∧ defender_dice ≤ 2 ∧
      (∃ (adice0 ddice0 adice ddice : List Int) (g1 g2 : Rng) (losses : Int × Int),
        loop roll_step attacker_dice.toNat 0 ([0, 0, 0], g) = some (adice0, g1) ∧
        loop roll_step defender_dice.toNat 0 ([0, 0], g1) = some (ddice0, g2) ∧
        sort_desc adice0 attacker_dice = some adice ∧
        sort_desc ddice0 defender_dice = some ddice ∧
        loop (compare_step adice ddice)
          (if attacker_dice < defender_dice then attacker_dice else defender_dice).toNat 0 (0, 0)
          = some losses) ∧
      ∃ (ret : Int) (terr1 : List Territory),
        resolve_attack attacker_idx defender_idx terr max_attacker_dice max_defender_dice g
          = some (ret, terr1) ∧ (ret = 1 ∨ ret = 2) := by
  have hadice := attacker_dice_of_eq A.troops max_attacker_dice
  have hddice := defender_dice_of_eq D.troops max_defender_dice
  obtain ⟨a, d, _, _, _, _, hr⟩ := roll_and_compare_defined
    (attacker_dice_of A.troops max_attacker_dice) (defender_dice_of D.troops max_defender_dice) g
    (by omega) (by omega)
  refine ⟨_, _, rfl, rfl, hdice, by omega, by omega, by omega,
    roll_and_compare_steps _ _ g _ hr, ?_⟩
  rw [resolve_attack_eq attacker_idx defender_idx terr max_attacker_dice max_defender_dice g
    A D ha0 ha1 hd0 hd1 hA hD hown htr hdice, hr, Option.some_bind]
  split
  · exact ⟨2, _, rfl, Or.inr rfl⟩
  · exact ⟨1, _, rfl, Or.inl rfl⟩

/-- C18, at attacker 5 troops against defender 6 troops with limits (3, 2). -/
theorem resolve_attack_in_bounds_witness :
    ∃ (attacker_dice defender_dice : Int),
      attacker_dice = attacker_dice_of 5 3 ∧ defender_dice = defender_dice_of 6 2 ∧
      1 ≤ attacker_dice ∧ attacker_dice ≤ 3 ∧ 1 ≤ defender_dice ∧ defender_dice ≤ 2 ∧
      (∃ (adice0 ddice0 adice ddice : List Int) (g1 g2 : Rng) (losses : Int × Int),
        loop roll_step attacker_dice.toNat 0 ([0, 0, 0], rngOfList [5, 4, 3, 5, 2])
          = some (adice0, g1) ∧
        loop roll_step defender_dice.toNat 0 ([0, 0], g1) = some (ddice0, g2) ∧
        sort_desc adice0 attacker_dice = some adice ∧
        sort_desc ddice0 defender_dice = some ddice ∧
        loop (compare_step adice ddice)
          (if attacker_dice < defender_dice then attacker_dice else defender_dice).toNat 0 (0, 0)
          = some losses) ∧
      ∃ (ret : Int) (terr1 : List Territory),
        resolve_attack 0 1 scenario1 3 2 (rngOfList [5, 4, 3, 5, 2]) = some (ret, terr1) ∧
        (ret = 1 ∨ ret = 2) :=
  resolve_attack_in_bounds 0 1 scenario1 3 2 (rngOfList [5, 4, 3, 5, 2])
    ⟨"Brasil", "Vermelho", 5, 0⟩ ⟨"EUA", "Azul", 6, 1⟩ (by decide) (by decide) (by decide)
    (by decide) (by decide) (by decide) rfl rfl (by decide) (by decide) (by decide)

/-- A conquest of a territory that had at least 1 troop: the attacker lost
nothing, the defender lost all its troops and neither clamp of the transfer
applies. -/
theorem conquest_losses (A_troops D_troops max_attacker_dice max_defender_dice : Int) (g : Rng)
    (r : Round)
    (hr : roll_and_compare (attacker_dice_of A_troops max_attacker_dice)
      (defender_dice_of D_troops max_defender_dice) g = some r)
    (hdice : 1 ≤ attacker_dice_of A_troops max_attacker_dice)
    (hD1 : 1 ≤ D_troops) (hconq : D_troops - r.defender_losses ≤ 0) :
    r.attacker_losses = 0 ∧ r.defender_losses = D_troops ∧
    attacker_dice_of A_troops max_attacker_dice < A_troops - r.attacker_losses ∧
    transfer_of (attacker_dice_of A_troops max_attacker_dice) (A_troops - r.attacker_losses)
      = attacker_dice_of A_troops max_attacker_dice := by
  obtain ⟨hal, hdl, hsum⟩ := roll_and_compare_losses _ _ g r hr
  have hadice := attacker_dice_of_eq A_troops max_attacker_dice
  have hddice := defender_dice_of_eq D_troops max_defender_dice
  have h0 : r.attacker_losses = 0 := by omega
  have hlt : attacker_dice_of A_troops max_attacker_dice < A_troops - r.attacker_losses := by
    omega
  refine ⟨h0, by omega, hlt, ?_⟩
  rw [transfer_of_eq, if_neg (by omega), if_neg (by omega)]

/-- C19: when a call returns 2 against a defender that had at least 1 troop,
the attacker lost nothing, the defender lost exactly its troops, the transfer
is the attacker's dice count with neither clamp taken, and the attacker ends
with its troops minus that count, at least 1. -/
theorem conquest_exact_transfer (attacker_idx defender_idx : Int)
    (terr terr1 : List Territory) (max_attacker_dice max_defender_dice : Int) (g : Rng)
    (D : Territory)
    (h : resolve_attack attacker_idx defender_idx terr max_attacker_dice max_defender_dice g
      = some (2, terr1))
    (hD : terr[defender_idx.toNat]? = some D) (hD1 : 1 ≤ D.troops) :
    ∃ (A A2 D2 : Territory) (r : Round) (attackerDice A1 : Int),
      terr[attacker_idx.toNat]? = some A ∧ 2 ≤ A.troops ∧
      attackerDice = min (A.troops - 1) max_attacker_dice ∧
      roll_and_compare attackerDice (defender_dice_of D.troops max_defender_dice) g = some r ∧
      r.attacker_losses = 0 ∧ r.defender_losses = D.troops ∧
      A1 = A.troops - r.attacker_losses ∧
      ¬ (attackerDice ≥ A1) ∧ ¬ (attackerDice < 1) ∧
      terr1[attacker_idx.toNat]? = some A2 ∧ terr1[defender_idx.toNat]? = some D2 ∧
      D2.troops = attackerDice ∧ A2.troops = A.troops - attackerDice ∧ 1 ≤ A2.troops := by
  obtain ⟨A, D0, r, ha0, ha1, hd0, hd1, hA, hD0, hown, htr, hdice, hr, hcase⟩ :=
    resolve_attack_resolved attacker_idx defender_idx terr terr1 max_attacker_dice
      max_defender_dice g 2 h (by omega)
  have hDD : D0 = D := by
    rw [hD0] at hD
    exact Option.some.inj hD
  subst hDD
  have hne := cells_distinct terr _ _ A D0 hA hD0 hown
  rcases hcase with ⟨_, hconq, hpost⟩ | ⟨h1, _, _⟩
  · obtain ⟨hal, hdl, hlt, htrans⟩ := conquest_losses A.troops D0.troops max_attacker_dice
      max_defender_dice g r hr hdice hD1 hconq
    rw [htrans] at hpost
    obtain ⟨hcA, hcD⟩ := cells_after terr _ _
      { A with
        troops :=
          A.troops - r.attacker_losses - attacker_dice_of A.troops max_attacker_dice }
      { D0 with
        owner_id := A.owner_id
        troops := attacker_dice_of A.troops max_attacker_dice }
      (by omega) (by omega) hne
    rw [← hpost] at hcA hcD
    have hadice := attacker_dice_of_eq A.troops max_attacker_dice
    rw [hadice] at hr hlt hcA hcD hdice
    refine ⟨A, _, _, r, _, _, hA, htr, rfl, hr, hal, hdl, rfl, by omega, by omega, hcA, hcD,
      rfl, ?_, ?_⟩
    · show A.troops - r.attacker_losses - min (A.troops - 1) max_attacker_dice = _
      omega
    · show 1 ≤ A.troops - r.attacker_losses - min (A.troops - 1) max_attacker_dice
      omega
  · omega

/-- C19, at attacker 3 troops against defender 1 troop, dice 4, 2 against 1. -/
theorem conquest_exact_transfer_witness :
    resolve_attack 0 1 scenario2 3 2 (rngOfList [3, 1, 0])
      = some (2, [⟨"Brasil", "Vermelho", 1, 0⟩, ⟨"Canada", "Azul", 2, 0⟩]) ∧
    ∃ (A A2 D2 : Territory) (r : Round) (attackerDice A1 : Int),
      scenario2[(0 : Int).toNat]? = some A ∧ 2 ≤ A.troops ∧
      attackerDice = min (A.troops - 1) 3 ∧
      roll_and_compare attackerDice (defender_dice_of 1 2) (rngOfList [3, 1, 0]) = some r ∧
      r.attacker_losses = 0 ∧ r.defender_losses = 1 ∧
      A1 = A.troops - r.attacker_losses ∧
      ¬ (attackerDice ≥ A1) ∧ ¬ (attackerDice < 1) ∧
      [(⟨"Brasil", "Vermelho", 1, 0⟩ : Territory), ⟨"Canada", "Azul", 2, 0⟩][(0 : Int).toNat]?
        = some A2 ∧
      [(⟨"Brasil", "Vermelho", 1, 0⟩ : Territory), ⟨"Canada", "Azul", 2, 0⟩][(1 : Int).toNat]?
        = some D2 ∧
      D2.troops = attackerDice ∧ A2.troops = A.troops - attackerDice ∧ 1 ≤ A2.troops :=
  ⟨by decide,
    conquest_exact_transfer 0 1 scenario2
      [⟨"Brasil", "Vermelho", 1, 0⟩, ⟨"Canada", "Azul", 2, 0⟩] 3 2 (rngOfList [3, 1, 0])
      ⟨"Canada", "Azul", 1, 1⟩ (by decide) rfl (by decide)⟩

/-- C20: in a resolved attack against a defender that had at least 1 troop,
the troops of the two territories afterwards add up to their troops before
minus the two losses, whether the call returns 1 or 2. -/
theorem resolve_attack_conserves (attacker_idx defender_idx : Int)
    (terr terr1 : List Territory) (max_attacker_dice max_defender_dice : Int) (g : Rng)
    (D : Territory) (ret : Int)
    (h : resolve_attack attacker_idx defender_idx terr max_attacker_dice max_defender_dice g
      = some (ret, terr1)) (hret : ret = 1 ∨ ret = 2)
    (hD : terr[defender_idx.toNat]? = some D) (hD1 : 1 ≤ D.troops) :
    ∃ (A A2 D2 : Territory) (r : Round),
      terr[attacker_idx.toNat]? = some A ∧
      roll_and_compare (attacker_dice_of A.troops max_attacker_dice)
        (defender_dice_of D.troops max_defender_dice) g = some r ∧
      terr1[attacker_idx.toNat]? = some A2 ∧ terr1[defender_idx.toNat]? = some D2 ∧
      A2.troops + D2.troops
        = A.troops + D.troops - (r.attacker_losses + r.defender_losses) := by
  obtain ⟨A, D0, r, ha0, ha1, hd0, hd1, hA, hD0, hown, htr, hdice, hr, hcase⟩ :=
    resolve_attack_resolved attacker_idx defender_idx terr terr1 max_attacker_dice
      max_defender_dice g ret h (by omega)
  have hDD : D0 = D := by
    rw [hD0] at hD
    exact Option.some.inj hD
  subst hDD
  have hne := cells_distinct terr _ _ A D0 hA hD0 hown
  rcases hcase with ⟨_, hconq, hpost⟩ | ⟨_, _, hpost⟩
  · obtain ⟨hal, hdl, _, htrans⟩ := conquest_losses A.troops D0.troops max_attacker_dice
      max_defender_dice g r hr hdice hD1 hconq
    rw [htrans] at hpost
    obtain ⟨hcA, hcD⟩ := cells_after terr _ _
      { A with
        troops :=
          A.troops - r.attacker_losses - attacker_dice_of A.troops max_attacker_dice }
      { D0 with
        owner_id := A.owner_id
        troops := attacker_dice_of A.troops max_attacker_dice }
      (by omega) (by omega) hne
    rw [← hpost] at hcA hcD
    refine ⟨A, _, _, r, hA, hr, hcA, hcD, ?_⟩
    show A.troops - r.attacker_losses - attacker_dice_of A.troops max_attacker_dice
      + attacker_dice_of A.troops max_attacker_dice = _
    omega
  · obtain ⟨hcA, hcD⟩ := cells_after terr _ _
      { A with troops := A.troops - r.attacker_losses }
      { D0 with troops := D0.troops - r.defender_losses } (by omega) (by omega) hne
    rw [← hpost] at hcA hcD
    refine ⟨A, _, _, r, hA, hr, hcA, hcD, ?_⟩
    show A.troops - r.attacker_losses + (D0.troops - r.defender_losses) = _
    omega

/-- C20, at the repelled attack of 5 troops on 6 and at the conquest of 1 troop
by 3. -/
theorem resolve_attack_conserves_witness :
    (resolve_attack 0 1 scenario1 3 2 (rngOfList [5, 4, 3, 5, 2])
        = some (1, [⟨"Brasil", "Vermelho", 4, 0⟩, ⟨"EUA", "Azul", 5, 1⟩]) ∧
      ∃ (A A2 D2 : Territory) (r : Round),
        scenario1[(0 : Int).toNat]? = some A ∧
        roll_and_compare (attacker_dice_of A.troops 3) (defender_dice_of 6 2)
          (rngOfList [5, 4, 3, 5, 2]) = some r ∧
        [(⟨"Brasil", "Vermelho", 4, 0⟩ : Territory), ⟨"EUA", "Azul", 5, 1⟩][(0 : Int).toNat]?
          = some A2 ∧
        [(⟨"Brasil", "Vermelho", 4, 0⟩ : Territory), ⟨"EUA", "Azul", 5, 1⟩][(1 : Int).toNat]?
          = some D2 ∧
        A2.troops + D2.troops = A.troops + 6 - (r.attacker_losses + r.defender_losses)) ∧
    (resolve_attack 0 1 scenario2 3 2 (rngOfList [3, 1, 0])
        = some (2, [⟨"Brasil", "Vermelho", 1, 0⟩, ⟨"Canada", "Azul", 2, 0⟩]) ∧
      ∃ (A A2 D2 : Territory) (r : Round),
        scenario2[(0 : Int).toNat]? = some A ∧
        roll_and_compare (attacker_dice_of A.troops 3) (defender_dice_of 1 2)
          (rngOfList [3, 1, 0]) = some r ∧
        [(⟨"Brasil", "Vermelho", 1, 0⟩ : Territory), ⟨"Canada", "Azul", 2, 0⟩][(0 : Int).toNat]?
          = some A2 ∧
        [(⟨"Brasil", "Vermelho", 1, 0⟩ : Territory), ⟨"Canada", "Azul", 2, 0⟩][(1 : Int).toNat]?
          = some D2 ∧
        A2.troops + D2.troops = A.troops + 1 - (r.attacker_losses + r.defender_losses)) :=
  ⟨⟨by decide,
      resolve_attack_conserves 0 1 scenario1
        [⟨"Brasil", "Vermelho", 4, 0⟩, ⟨"EUA", "Azul", 5, 1⟩] 3 2 (rngOfList [5, 4, 3, 5, 2])
        ⟨"EUA", "Azul", 6, 1⟩ 1 (by decide) (Or.inl rfl) rfl (by decide)⟩,
    ⟨by decide,
      resolve_attack_conserves 0 1 scenario2
        [⟨"Brasil", "Vermelho", 1, 0⟩, ⟨"Canada", "Azul", 2, 0⟩] 3 2 (rngOfList [3, 1, 0])
        ⟨"Canada", "Azul", 1, 1⟩ 2 (by decide) (Or.inr rfl) rfl (by decide)⟩⟩

end War
